import Mathlib

/-!
Shallow embedding of the boost-detection and reconciliation pipeline of the
IOS-screen-mirror repository.

The embedded code:
  * `src/unnamed/part_004` — boost calculator (`americanToDecimal`,
    `calculateActualBoostPercentage`, `verifyBoostAccuracy`);
  * `src/unnamed/part_007` — the reconciler state machine around the
    `airConnect.on('screenData')` handler, `isDifferentBoost`,
    `checkNoNewBoost`, `checkNumberFailures`;
  * `src/src/text-detection/index.ts` — the OCR text parsers
    (`detectOdds` on cleaned OCR text, `parsePercentageFromText`).

JavaScript numbers are modelled as exact rationals (`ℚ`); `NaN` is modelled
by `Option` (`none`), with the JS comparison semantics (`NaN < x` is false,
`NaN !== NaN` is true) made explicit in the `nan*` helpers.  JS strings are
modelled as `List Char` inside the parsers and as `String` at the interfaces.
The regular expressions of the source are embedded via a small backtracking
matcher (`RE`/`mEval`) whose alternation, greedy and lazy quantifier orders
follow the JS engine (leftmost start position, then pattern preference).
-/

/-! ### Character classes (JS `\d`, `\s`, `\w`, `[+-]`, lowercasing) -/

def isDigitChar (c : Char) : Bool := 48 ≤ c.toNat && c.toNat ≤ 57

/-- JS `\s` (the whitespace characters that occur in OCR text). -/
def isWsChar (c : Char) : Bool :=
  c.toNat == 32 || c.toNat == 9 || c.toNat == 10 || c.toNat == 13 ||
  c.toNat == 12 || c.toNat == 11 || c.toNat == 160

def isSignChar (c : Char) : Bool := c.toNat == 43 || c.toNat == 45

/-- JS `\w` = `[A-Za-z0-9_]`. -/
def isWordChar (c : Char) : Bool :=
  isDigitChar c || (65 ≤ c.toNat && c.toNat ≤ 90) ||
  (97 ≤ c.toNat && c.toNat ≤ 122) || c.toNat == 95

/-- ASCII lowercasing on character codes (enough for the `/i` flag and
`toLowerCase` on the ASCII text these parsers handle). -/
def lowerN (n : Nat) : Nat := if 65 ≤ n ∧ n ≤ 90 then n + 32 else n

def isAsciiLetter (c : Char) : Bool :=
  (65 ≤ c.toNat && c.toNat ≤ 90) || (97 ≤ c.toNat && c.toNat ≤ 122)

/-! ### JS number parsing (`parseInt`, `parseFloat`) and `Math.round` -/

def digitVal (c : Char) : Nat := c.toNat - 48

def natOfDigits (ds : List Char) : Nat := ds.foldl (fun a c => a * 10 + digitVal c) 0

/-- The digit-run part of `parseInt`: longest leading run of decimal digits,
`none` (NaN) when there is none. -/
def parseDigitsNat (cs : List Char) : Option Nat :=
  let ds := cs.takeWhile isDigitChar
  if ds.isEmpty then none else some (natOfDigits ds)

/-- JS `parseInt(s)` (radix 10): skip leading whitespace, optional sign,
longest digit prefix; NaN is `none`. -/
def parseIntJS (cs : List Char) : Option Int :=
  let t := cs.dropWhile isWsChar
  match t.head? with
  | none => none
  | some c =>
    if c.toNat == 43 then (parseDigitsNat t.tail).map (fun n => (n : Int))
    else if c.toNat == 45 then (parseDigitsNat t.tail).map (fun n => -(n : Int))
    else (parseDigitsNat t).map (fun n => (n : Int))

/-- Unsigned part of `parseFloat`: digits, optionally followed by `.` and more
digits (the inputs it is applied to contain only `[0-9.-]`, so no exponents). -/
def parseFloatMag (cs : List Char) : Option ℚ :=
  let intDs := cs.takeWhile isDigitChar
  let rest := cs.dropWhile isDigitChar
  let fracDs :=
    match rest.head? with
    | some c => if c.toNat == 46 then rest.tail.takeWhile isDigitChar else []
    | none => []
  if intDs.isEmpty && fracDs.isEmpty then none
  else some ((natOfDigits intDs : ℚ) + (natOfDigits fracDs : ℚ) / ((10 : ℚ) ^ fracDs.length))

/-- JS `parseFloat(s)` on the restricted inputs of this code base. -/
def parseFloatJS (cs : List Char) : Option ℚ :=
  let t := cs.dropWhile isWsChar
  match t.head? with
  | none => none
  | some c =>
    if c.toNat == 43 then parseFloatMag t.tail
    else if c.toNat == 45 then (parseFloatMag t.tail).map (fun q => -q)
    else parseFloatMag t

/-- JS `Math.round`: round half toward +∞. -/
def jsRound (q : ℚ) : ℤ := ⌊q + 1 / 2⌋

/-- `Math.round(q * 10) / 10` — round to 1 decimal place. -/
def jsRound1 (q : ℚ) : ℚ := (jsRound (q * 10) : ℚ) / 10

/-- `Math.round(q * 100) / 100` — round to 2 decimal places. -/
def jsRound2 (q : ℚ) : ℚ := (jsRound (q * 100) : ℚ) / 100

/-- JS `<` where either operand may be NaN (any comparison with NaN is false). -/
def nanLt : Option Int → Option Int → Bool
  | some a, some b => a < b
  | _, _ => false

/-- JS `<=` where either operand may be NaN. -/
def nanLe : Option Int → Option Int → Bool
  | some a, some b => a ≤ b
  | _, _ => false

/-- JS `!==` on numbers: `NaN !== x` is true for every `x`, including NaN. -/
def nanNe : Option Int → Option Int → Bool
  | some a, some b => a != b
  | _, _ => true

/-! ### `src/unnamed/part_004` — boost calculator -/

/-- Embedded from `americanToDecimal` (part_004 lines 17-28).  The source
strips every `+`/`-` with `replace(/[+\-]/g, '')`, parses the remainder with
`parseInt`, and branches on the leading sign; a NaN parse (`none`) propagates
through every branch, so it is hoisted.  JS division by zero yields Infinity;
the claims about this function all assume a nonzero odds value. -/
def americanToDecimal (americanOdds : String) : Option ℚ :=
  match parseIntJS (americanOdds.toList.filter (fun c => !(isSignChar c))) with
  | none => none
  | some odds =>
    if americanOdds.toList.head? == some '+' then some ((odds : ℚ) / 100 + 1)
    else if americanOdds.toList.head? == some '-' then some (100 / (odds : ℚ) + 1)
    else some ((odds : ℚ) / 100 + 1)

/-- Embedded from `calculateActualBoostPercentage` (part_004 lines 33-46).
The `try`/`catch` of the source can only be reached by a thrown exception,
which the arithmetic never produces; an unparseable input gives NaN in JS,
modelled as `none`. -/
def calculateActualBoostPercentage (preBoostOdds postBoostOdds : String) : Option ℚ :=
  match americanToDecimal preBoostOdds, americanToDecimal postBoostOdds with
  | some preDecimal, some postDecimal =>
    some (jsRound2 (((postDecimal - preDecimal) / preDecimal) * 100))
  | _, _ => none

structure BoostCalculation where
  actualBoostPercentage : ℚ
  detectedBoostPercentage : ℚ
  discrepancy : ℚ
  isSignificantDiscrepancy : Bool
  wasOdds : String
  nowOdds : String
deriving DecidableEq, Repr

/-- Embedded from `verifyBoostAccuracy` (part_004 lines 51-76); the source
declares `discrepancyThreshold: number = 10`, i.e. the caller-supplied
threshold defaults to 10; `none` models the NaN-propagating result on
unparseable odds (which the spec describes as "propagating a null/NaN result
if inputs are unparseable"). -/
def verifyBoostAccuracy (detectedPercentage : ℚ) (preBoostOdds postBoostOdds : String)
    (discrepancyThreshold : ℚ) : Option BoostCalculation :=
  match calculateActualBoostPercentage preBoostOdds postBoostOdds with
  | none => none
  | some actualBoostPercentage =>
    let discrepancy := |actualBoostPercentage - detectedPercentage|
    let isSignificantDiscrepancy := decide (discrepancy ≥ discrepancyThreshold)
    some { actualBoostPercentage := actualBoostPercentage,
           detectedBoostPercentage := detectedPercentage,
           discrepancy := discrepancy,
           isSignificantDiscrepancy := isSignificantDiscrepancy,
           wasOdds := preBoostOdds,
           nowOdds := postBoostOdds }

/-! ### `src/unnamed/part_007` — reconciler state machine -/

/-- Embedded from the `BoostData` interface (part_007 lines 96-101). -/
structure BoostData where
  percentage : ℚ
  wasOdds : Option String
  nowOdds : Option String
  timestamp : Nat
deriving DecidableEq, Repr

/-- The module-level mutable variables of part_007 that the claims are about,
gathered into one state record (timestamps in milliseconds). -/
structure MonitorState where
  lastBoostData : Option BoostData
  consecutiveNumberFailures : Nat
  numberFailureNotified : Bool
  lastUniqueBoostTime : Nat
  noNewBoostNotified : Bool
  totalBoostsDetected : Nat
  lastNotificationTime : Nat
  lastDetectedPercentage : ℚ
deriving DecidableEq, Repr

/-- `NO_NEW_BOOST_TIMEOUT = 12 * 60 * 1000` (part_007 line 88). -/
def NO_NEW_BOOST_TIMEOUT : Nat := 12 * 60 * 1000

/-- `MAX_NUMBER_FAILURES = 6` (part_007 line 93). -/
def MAX_NUMBER_FAILURES : Nat := 6

/-- Outbound messages of one handler/watch invocation.  `boost` is the
`sendNotification` → `bot.sendBoostAlert` path, `oddsTest` is
`bot.sendOddsTest`, and the two system alerts come from the health watches. -/
inductive Alert where
  | oddsTest
  | boost (percentage : ℚ) (wasOdds nowOdds : Option String)
  | staleAlert
  | failureAlert
deriving DecidableEq, Repr

def isBoostAlert : Alert → Bool
  | Alert.boost _ _ _ => true
  | _ => false

/-- Embedded from `isDifferentBoost` (part_007 lines 176-202). -/
def isDifferentBoost (lastBoostData : Option BoostData) (currentPercentage : ℚ)
    (currentWasOdds currentNowOdds : Option String) : Bool :=
  match lastBoostData with
  | none => true
  | some last =>
    let percentageChanged := last.percentage ≠ currentPercentage
    let wasOddsChanged := last.wasOdds ≠ currentWasOdds
    let nowOddsChanged := last.nowOdds ≠ currentNowOdds
    if percentageChanged then true
    else if wasOddsChanged then true
    else if nowOddsChanged then true
    else false

/-- Embedded from `checkNoNewBoost` (part_007 lines 205-222).  The `Nat`
subtraction agrees with the JS `now - lastUniqueBoostTime > TIMEOUT` guard:
both are true exactly when `now > lastUniqueBoostTime + TIMEOUT`. -/
def checkNoNewBoost (now : Nat) (s : MonitorState) : MonitorState × List Alert :=
  let timeSinceLastUniqueBoost := now - s.lastUniqueBoostTime
  if timeSinceLastUniqueBoost > NO_NEW_BOOST_TIMEOUT ∧ s.noNewBoostNotified = false then
    ({ s with noNewBoostNotified := true }, [Alert.staleAlert])
  else (s, [])

/-- Embedded from `checkNumberFailures` (part_007 lines 225-238). -/
def checkNumberFailures (s : MonitorState) : MonitorState × List Alert :=
  if s.consecutiveNumberFailures ≥ MAX_NUMBER_FAILURES ∧ s.numberFailureNotified = false then
    ({ s with numberFailureNotified := true }, [Alert.failureAlert])
  else (s, [])

/-- `replace(/[^0-9.-]/g, '')` (part_007 lines 449-450). -/
def stripToNumericChars (s : String) : List Char :=
  s.toList.filter (fun c => isDigitChar c || c.toNat == 46 || c.toNat == 45)

/-- Embedded from part_007 lines 447-461: the percentage used by the handler,
`Math.round(((now - was) / was) * 100 * 10) / 10` on the `parseFloat` of the
sign-preserving numeric strip of the two detected odds strings; `none` when
either odds string is missing, fails to parse, or the was-value is zero. -/
def computeBoostPercentage (originalOdds boostedOdds : Option String) : Option ℚ :=
  match originalOdds, boostedOdds with
  | some o, some b =>
    let wasOddsValue := parseFloatJS (stripToNumericChars o)
    let nowOddsValue := parseFloatJS (stripToNumericChars b)
    match wasOddsValue, nowOddsValue with
    | some w, some n =>
      if w ≠ 0 then some (jsRound1 (((n - w) / w) * 100)) else none
    | _, _ => none
  | _, _ => none

/-- The `screenData` payload fields the handler's control flow depends on.
`originalOdds`/`boostedOdds` are the results of `detectOddsComparison` on the
grayscale odds crop (an OCR boundary, hence inputs here). -/
structure ScreenData where
  cropFailed : Bool
  cropTooSmall : Bool
  originalOdds : Option String
  boostedOdds : Option String
deriving DecidableEq, Repr

/-- Embedded from the `airConnect.on('screenData')` handler (part_007 lines
388-583): crop-failure short circuits, percentage computation, the
new-vs-repeat decision via `isDifferentBoost`, counter/flag/timestamp updates
and the emitted messages.  The several `Date.now()` reads of one cycle are
collapsed into the single `now` argument.  Debug-image writes, log lines, and
the status-update bookkeeping inside `sendNotification` that no claim
mentions (`lastBoostTime`, `lastBoostPercentage` display strings) are I/O
with no effect on the tracked state and are omitted; the
`totalBoostsDetected` increment of `sendNotification` is kept. -/
def handleScreenData (s : MonitorState) (d : ScreenData) (now : Nat) :
    MonitorState × List Alert :=
  if d.cropFailed then
    ({ s with consecutiveNumberFailures := s.consecutiveNumberFailures + 1 }, [])
  else if d.cropTooSmall then
    ({ s with consecutiveNumberFailures := s.consecutiveNumberFailures + 1 }, [])
  else
    let percentage := computeBoostPercentage d.originalOdds d.boostedOdds
    match percentage with
    | some pct =>
      let wasOdds := d.originalOdds
      let nowOdds := d.boostedOdds
      let currentBoostData : BoostData :=
        { percentage := pct, wasOdds := wasOdds, nowOdds := nowOdds, timestamp := now }
      let isNewBoost := isDifferentBoost s.lastBoostData pct wasOdds nowOdds
      if isNewBoost then
        ({ s with consecutiveNumberFailures := 0,
                  numberFailureNotified := false,
                  lastUniqueBoostTime := now,
                  noNewBoostNotified := false,
                  totalBoostsDetected := s.totalBoostsDetected + 1,
                  lastNotificationTime := now,
                  lastDetectedPercentage := pct,
                  lastBoostData := some currentBoostData },
         [Alert.oddsTest, Alert.boost pct wasOdds nowOdds])
      else
        ({ s with consecutiveNumberFailures := 0, numberFailureNotified := false },
         [Alert.oddsTest])
    | none =>
      ({ s with consecutiveNumberFailures := s.consecutiveNumberFailures + 1 },
       [Alert.oddsTest])

/-- Folding `checkNoNewBoost` over a list of check times. -/
def runNoNewBoostChecks : List Nat → MonitorState → MonitorState × List Alert
  | [], s => (s, [])
  | t :: ts, s =>
    let r := checkNoNewBoost t s
    let r2 := runNoNewBoostChecks ts r.1
    (r2.1, r.2 ++ r2.2)

/-- Iterating `checkNumberFailures` a number of times. -/
def runNumberFailureChecks : Nat → MonitorState → MonitorState × List Alert
  | 0, s => (s, [])
  | k + 1, s =>
    let r := checkNumberFailures s
    let r2 := runNumberFailureChecks k r.1
    (r2.1, r.2 ++ r2.2)

/-! ### A small backtracking regex matcher

The regular expressions of `text-detection/index.ts` use only: literals,
one-character classes, `?` on a class or sign, `{m,n}`/`+`/`*` repetition of a
one-character class, lazy `.*?`, alternation, and capture groups.  `mEval`
explores alternatives in the JS backtracking order (left alternative first,
greedy repeats longest-first, lazy repeats shortest-first), and `reSearch`
takes the leftmost start position that admits a match, which is exactly the
semantics of `String.prototype.match` for these patterns. -/

abbrev CharPred := Char → Bool

inductive RE where
  | lit (s : List Char)
  | cls (p : CharPred)
  | seq (a b : RE)
  | alt (a b : RE)
  | opt (a : RE)
  | rep (p : CharPred) (lo : Nat) (hi : Option Nat) (lazy : Bool)
  | grp (i : Nat) (a : RE)

abbrev Caps := List (Nat × List Char)

/-- Case-sensitive or ASCII case-insensitive character comparison. -/
def charCI (ci : Bool) (a b : Char) : Bool :=
  if ci then lowerN a.toNat == lowerN b.toNat else a == b

/-- Match a literal against a prefix of the input, returning the rest. -/
def litStrip (ci : Bool) : List Char → List Char → Option (List Char)
  | [], cs => some cs
  | _ :: _, [] => none
  | p :: ps, c :: cs => if charCI ci p c then litStrip ci ps cs else none

/-- Length of the maximal prefix of `cs` whose characters satisfy `p`. -/
def runLen (p : CharPred) : List Char → Nat
  | [] => 0
  | c :: rest => if p c then runLen p rest + 1 else 0

/-- CPS backtracking evaluator: `k` receives the rest of the input and the
captures accumulated so far; the first alternative (in JS preference order)
for which `k` succeeds wins. -/
def mEval (ci : Bool) : RE → List Char → Caps →
    (List Char → Caps → Option (List Char × Caps)) → Option (List Char × Caps)
  | RE.lit s, cs, caps, k =>
    match litStrip ci s cs with
    | some rest => k rest caps
    | none => none
  | RE.cls p, cs, caps, k =>
    match cs with
    | c :: rest => if p c then k rest caps else none
    | [] => none
  | RE.seq a b, cs, caps, k =>
    mEval ci a cs caps (fun cs2 caps2 => mEval ci b cs2 caps2 k)
  | RE.alt a b, cs, caps, k =>
    (mEval ci a cs caps k).orElse (fun _ => mEval ci b cs caps k)
  | RE.opt a, cs, caps, k =>
    (mEval ci a cs caps k).orElse (fun _ => k cs caps)
  | RE.rep p lo hi lzy, cs, caps, k =>
    let r := runLen p cs
    let m := match hi with | some h => min r h | none => r
    if lo ≤ m then
      let counts := List.range' lo (m - lo + 1)
      let counts := if lzy then counts else counts.reverse
      counts.findSome? (fun n => k (cs.drop n) caps)
    else none
  | RE.grp i a, cs, caps, k =>
    mEval ci a cs caps
      (fun cs2 caps2 => k cs2 ((i, cs.take (cs.length - cs2.length)) :: caps2))

structure MatchRes where
  index : Nat
  matched : List Char
  caps : Caps
deriving Inhabited

/-- `match[i]` for a capture group (the empty string when absent). -/
def capGet (caps : Caps) (i : Nat) : List Char :=
  match caps.find? (fun p => p.1 == i) with
  | some p => p.2
  | none => []

def matchAtPos (ci : Bool) (re : RE) (cs : List Char) : Option (List Char × Caps) :=
  mEval ci re cs [] (fun rest caps => some (rest, caps))

/-- Leftmost match, like `String.prototype.match` without `/g`. -/
def reSearch (ci : Bool) (re : RE) (cs : List Char) : Option MatchRes :=
  (List.range (cs.length + 1)).findSome? (fun i =>
    (matchAtPos ci re (cs.drop i)).map (fun rc =>
      { index := i,
        matched := (cs.drop i).take ((cs.drop i).length - rc.1.length),
        caps := rc.2 }))

/-- All non-overlapping matches from the left, like `matchAll` / `match` with
`/g` (an empty match advances by one, as `lastIndex` does). -/
def reMatchAllAux (ci : Bool) (re : RE) : Nat → Nat → List Char → List MatchRes
  | 0, _, _ => []
  | fuel + 1, offset, cs =>
    match reSearch ci re cs with
    | none => []
    | some m =>
      let step := m.index + max m.matched.length 1
      { m with index := offset + m.index } ::
        reMatchAllAux ci re fuel (offset + step) (cs.drop step)

def reMatchAll (ci : Bool) (re : RE) (cs : List Char) : List MatchRes :=
  reMatchAllAux ci re (cs.length + 1) 0 cs

/-- Global `replace` with a replacement function.  Every pattern it is used
with consumes at least one character, so the empty-match case only skips. -/
def reReplaceAux (ci : Bool) (re : RE) (f : MatchRes → List Char) :
    Nat → List Char → List Char
  | 0, cs => cs
  | fuel + 1, cs =>
    match reSearch ci re cs with
    | none => cs
    | some m =>
      if m.matched.isEmpty then
        cs.take (m.index + 1) ++ reReplaceAux ci re f fuel (cs.drop (m.index + 1))
      else
        cs.take m.index ++ f m ++
          reReplaceAux ci re f fuel (cs.drop (m.index + m.matched.length))

def reReplace (ci : Bool) (re : RE) (f : MatchRes → List Char) (cs : List Char) :
    List Char :=
  reReplaceAux ci re f (cs.length + 1) cs

/-- First index at which `sub` occurs in `hay` (JS `indexOf`; every call site
searches for a string known to occur, so the default is never used). -/
def indexOfSub (hay sub : List Char) : Nat :=
  (((List.range (hay.length + 1)).find? (fun i => (litStrip false sub (hay.drop i)).isSome)).getD 0)

/-- Case-insensitive substring test (`toLowerCase().includes(needle)` with a
lowercase needle). -/
def includesCI (needle hay : List Char) : Bool :=
  (List.range (hay.length + 1)).any (fun i => (litStrip true needle (hay.drop i)).isSome)

/-- `toLowerCase() === lit` for a lowercase literal. -/
def toLowerEqLit (cs lit : List Char) : Bool :=
  cs.length == lit.length &&
    (cs.zip lit).all (fun p => lowerN p.1.toNat == p.2.toNat)

/-- First occurrence of `sub` replaced by `repl` (JS `replace` with a plain
string pattern); the input is returned unchanged when `sub` does not occur. -/
def replaceFirstSubAux (sub repl : List Char) : Nat → List Char → List Char
  | 0, cs => cs
  | _ + 1, [] => []
  | fuel + 1, c :: rest =>
    match litStrip false sub (c :: rest) with
    | some after => repl ++ after
    | none => c :: replaceFirstSubAux sub repl fuel rest

def replaceFirstSub (sub repl cs : List Char) : List Char :=
  replaceFirstSubAux sub repl (cs.length + 1) cs

/-- `replace(/[+\-]/, '')` — remove the first sign character, if any. -/
def removeFirstSign : List Char → List Char
  | [] => []
  | c :: rest => if isSignChar c then rest else c :: removeFirstSign rest

/-! ### `text-detection/index.ts` — regexes of `detectOdds` -/

def reCat (l : List RE) : RE := l.foldr RE.seq (RE.lit [])

/-- `\d{lo,hi}` (greedy). -/
def reDigits (lo hi : Nat) : RE := RE.rep isDigitChar lo (some hi) false

/-- `[+\-]?`. -/
def reSignOpt : RE := RE.opt (RE.cls isSignChar)

/-- `\s*`. -/
def reWs0 : RE := RE.rep isWsChar 0 none false

/-- `\s+`. -/
def reWs1 : RE := RE.rep isWsChar 1 none false

/-- `[+\-]?\d{3,5}` with the whole thing captured as group 1 when wrapped. -/
def reOddsNum : RE := reCat [reSignOpt, reDigits 3 5]

/-- `.` without the `s` flag (anything but a line terminator). -/
def isDotChar (c : Char) : Bool :=
  !(c.toNat == 10 || c.toNat == 13 || c.toNat == 8232 || c.toNat == 8233)

/-- Lazy `.*?`. -/
def reDotLazy : RE := RE.rep isDotChar 0 none true

/-- `/([+\-]\d{3,5})/` (line 130). -/
def directOddsRe : RE := RE.grp 1 (reCat [RE.cls isSignChar, reDigits 3 5])

/-- `/[+\-]?\d{3,5}/g` (lines 139, 296, 421). -/
def allOddsNumRe : RE := reOddsNum

/-- `/Was\s*([+\-]?\d{3,5})\s*[>→»]\s*Now\s*([+\-]?\d{3,5})/i` (line 164). -/
def wasNowSeparatorRe : RE :=
  reCat [RE.lit ('W' :: 'a' :: 's' :: []), reWs0, RE.grp 1 reOddsNum, reWs0,
         RE.cls (fun c => c.toNat == 62 || c.toNat == 8594 || c.toNat == 187),
         reWs0, RE.lit ('N' :: 'o' :: 'w' :: []), reWs0, RE.grp 2 reOddsNum]

/-- `/Was\s*([+\-]?\d{3,5})/i` (lines 175, 453). -/
def simpleWasRe : RE :=
  reCat [RE.lit ('W' :: 'a' :: 's' :: []), reWs0, RE.grp 1 reOddsNum]

/-- `/Now\s*([+\-]?\d{3,5})/i` (lines 182, 454). -/
def nowRe : RE :=
  reCat [RE.lit ('N' :: 'o' :: 'w' :: []), reWs0, RE.grp 1 reOddsNum]

/-- `/([+\-]?\d{3,5})/` (line 192). -/
def nextOddsRe : RE := RE.grp 1 reOddsNum

/-- `/Was\s*([+\-]?\d{3,5})\s*[|\\.,:;]\s*([+\-]?\d{3,5})/i` (line 212). -/
def altSepRe1 : RE :=
  reCat [RE.lit ('W' :: 'a' :: 's' :: []), reWs0, RE.grp 1 reOddsNum, reWs0,
         RE.cls (fun c => c.toNat == 124 || c.toNat == 92 || c.toNat == 46 ||
                          c.toNat == 44 || c.toNat == 58 || c.toNat == 59),
         reWs0, RE.grp 2 reOddsNum]

/-- `/Was\s*([+\-]?\d{3,5})\s+([+\-]\d{3,5})/i` (line 213). -/
def altSepRe2 : RE :=
  reCat [RE.lit ('W' :: 'a' :: 's' :: []), reWs0, RE.grp 1 reOddsNum, reWs1,
         RE.grp 2 (reCat [RE.cls isSignChar, reDigits 3 5])]

/-- `/Was\s*([+\-]?\d{3,5})\s*\w*\s*([+\-]\d{3,5})/i` (line 214). -/
def altSepRe3 : RE :=
  reCat [RE.lit ('W' :: 'a' :: 's' :: []), reWs0, RE.grp 1 reOddsNum, reWs0,
         RE.rep isWordChar 0 none false, reWs0,
         RE.grp 2 (reCat [RE.cls isSignChar, reDigits 3 5])]

/-- `/Was\s*([+\-]?\d{3,5})\s+(\w+)/i` (line 228). -/
def wasWithOcrErrorRe : RE :=
  reCat [RE.lit ('W' :: 'a' :: 's' :: []), reWs0, RE.grp 1 reOddsNum, reWs1,
         RE.grp 2 (RE.rep isWordChar 1 none false)]

/-- `/Was.*?(\+?\d{3,5}).*?(\+?\d{3,5})/i` (line 269). -/
def wasGeneralRe : RE :=
  reCat [RE.lit ('W' :: 'a' :: 's' :: []), reDotLazy,
         RE.grp 1 (reCat [RE.opt (RE.cls (fun c => c.toNat == 43)), reDigits 3 5]),
         reDotLazy,
         RE.grp 2 (reCat [RE.opt (RE.cls (fun c => c.toNat == 43)), reDigits 3 5])]

/-- `/Was\s*([+\-]?\d{3,5})\s*(?:Now|→|->|\s)\s*([+\-]?\d{3,5})/i` (line 278). -/
def sameLineWasNowRe : RE :=
  reCat [RE.lit ('W' :: 'a' :: 's' :: []), reWs0, RE.grp 1 reOddsNum, reWs0,
         RE.alt (RE.lit ('N' :: 'o' :: 'w' :: []))
           (RE.alt (RE.lit ('→' :: []))
             (RE.alt (RE.lit ('-' :: '>' :: [])) (RE.cls isWsChar))),
         reWs0, RE.grp 2 reOddsNum]

/-- `/Was\s*[+\-]?(\d{3,5})/i` (lines 288, 316): the capture excludes the sign. -/
def standaloneWasRe : RE :=
  reCat [RE.lit ('W' :: 'a' :: 's' :: []), reWs0, reSignOpt, RE.grp 1 (reDigits 3 5)]

/-- `/Was\s*[+\-]?(\d{3,5})\s*.*?(?:v|→|Now)\s*[+\-]?(\d{3,5})/gi` (line 313). -/
def wasNowFullRe : RE :=
  reCat [RE.lit ('W' :: 'a' :: 's' :: []), reWs0, reSignOpt, RE.grp 1 (reDigits 3 5),
         reWs0, reDotLazy,
         RE.alt (RE.lit ('v' :: []))
           (RE.alt (RE.lit ('→' :: [])) (RE.lit ('N' :: 'o' :: 'w' :: []))),
         reWs0, reSignOpt, RE.grp 2 (reDigits 3 5)]

/-- `/(?:v|→|Now)\s*[+\-]?(\d{3,5})/i` (line 317). -/
def vNowRe : RE :=
  reCat [RE.alt (RE.lit ('v' :: []))
           (RE.alt (RE.lit ('→' :: [])) (RE.lit ('N' :: 'o' :: 'w' :: []))),
         reWs0, reSignOpt, RE.grp 1 (reDigits 3 5)]

/-- `/Wos\s*([+\-]?\d{3,5})\s+([+\-]?\d{2,5}|[iv]\d{2,5}|[58]\d{3,4})/i`
(line 359); `[iv]` under `/i` also accepts the uppercase letters. -/
def wosRe : RE :=
  reCat [RE.lit ('W' :: 'o' :: 's' :: []), reWs0, RE.grp 1 reOddsNum, reWs1,
         RE.grp 2 (RE.alt (reCat [reSignOpt, reDigits 2 5])
           (RE.alt (reCat [RE.cls (fun c => lowerN c.toNat == 105 || lowerN c.toNat == 118),
                           reDigits 2 5])
                   (reCat [RE.cls (fun c => c.toNat == 53 || c.toNat == 56),
                           reDigits 3 4])))]

/-- `/Was\s*[+\-]?(\d{3,5})/gi` (line 158). -/
def wasNowP1 : RE := standaloneWasRe

/-- `/Now\s*[+\-]?(\d{3,5})/gi` (line 159). -/
def wasNowP2 : RE :=
  reCat [RE.lit ('N' :: 'o' :: 'w' :: []), reWs0, reSignOpt, RE.grp 1 (reDigits 3 5)]

/-- `/Was\s*[+\-]?(\d{3,5})\s*.*?Now\s*[+\-]?(\d{3,5})/gi` (line 160). -/
def wasNowP3 : RE :=
  reCat [RE.lit ('W' :: 'a' :: 's' :: []), reWs0, reSignOpt, RE.grp 1 (reDigits 3 5),
         reWs0, reDotLazy, RE.lit ('N' :: 'o' :: 'w' :: []), reWs0, reSignOpt,
         RE.grp 2 (reDigits 3 5)]

/-! ### `text-detection/index.ts` — OCR text cleaning (lines 84-114) -/

/-- `/Wos\s*([+\-]?\d{3,5})\s+5(\d{3})/g` (line 89). -/
def wosCleanRe : RE :=
  reCat [RE.lit ('W' :: 'o' :: 's' :: []), reWs0, RE.grp 1 reOddsNum, reWs1,
         RE.lit ('5' :: []), RE.grp 2 (reDigits 3 3)]

/-- `/([+\-]?)I(\d{3,4})/g` (line 106). -/
def cleanIRe : RE :=
  reCat [RE.grp 1 reSignOpt, RE.lit ('I' :: []), RE.grp 2 (reDigits 3 4)]

/-- `/([+\-]?)Z(\d{3,4})/g` (line 111). -/
def cleanZRe : RE :=
  reCat [RE.grp 1 reSignOpt, RE.lit ('Z' :: []), RE.grp 2 (reDigits 3 4)]

def boundaryAfterOk : List Char → Bool
  | [] => true
  | c :: _ => !(isWordChar c)

/-- One attempt of `(\d)6(\d{2,3})\b` at the current position (the leading
`\b` is checked by the caller): the first component of the result is the
second capture group, the other is the input after the match.  Greedy
`\d{2,3}` tries three digits first and backtracks to two when the trailing
word boundary fails, as the JS engine does. -/
def trySixMatch : List Char → Option (List Char × List Char)
  | c :: '6' :: d1 :: d2 :: d3 :: rest =>
    if isDigitChar c && isDigitChar d1 && isDigitChar d2 then
      if isDigitChar d3 && boundaryAfterOk rest then some ([d1, d2, d3], rest)
      else if boundaryAfterOk (d3 :: rest) then some ([d1, d2], d3 :: rest)
      else none
    else none
  | c :: '6' :: d1 :: d2 :: rest =>
    if isDigitChar c && isDigitChar d1 && isDigitChar d2 && boundaryAfterOk rest then
      some ([d1, d2], rest)
    else none
  | _ => none

/-- Global replace of `/\b(\d)6(\d{2,3})\b/` with the callback of lines
97-104: the match `first 6 rest` becomes `first 0 rest` exactly when the
second group is `00`; scanning resumes after each match. -/
def cleanZeroSixAux : Nat → Option Char → List Char → List Char
  | 0, _, cs => cs
  | _ + 1, _, [] => []
  | fuel + 1, prev, c :: rest =>
    let boundaryBefore := match prev with | none => true | some p => !(isWordChar p)
    if boundaryBefore && isDigitChar c then
      match trySixMatch (c :: rest) with
      | some (g2, after) =>
        let repl := if g2 == ('0' :: '0' :: []) then c :: '0' :: g2 else c :: '6' :: g2
        repl ++ cleanZeroSixAux fuel (some ((c :: '6' :: g2).getLastD c)) after
      | none => c :: cleanZeroSixAux fuel (some c) rest
    else c :: cleanZeroSixAux fuel (some c) rest

def cleanZeroSix (cs : List Char) : List Char :=
  cleanZeroSixAux (cs.length + 1) none cs

/-- The chained `replace` calls of lines 87-114 producing `cleanedText`. -/
def cleanOcrText (cs : List Char) : List Char :=
  let r1 := reReplace false wosCleanRe (fun m =>
    if capGet m.caps 2 == ('5' :: '7' :: '8' :: []) then
      replaceFirstSub ('5' :: '5' :: '7' :: '8' :: []) ('8' :: '5' :: '7' :: '8' :: []) m.matched
    else m.matched) cs
  let r2 := cleanZeroSix r1
  let r3 := reReplace false cleanIRe (fun m =>
    capGet m.caps 1 ++ '1' :: capGet m.caps 2) r2
  reReplace false cleanZRe (fun m =>
    capGet m.caps 1 ++ '2' :: capGet m.caps 2) r3

/-! ### `text-detection/index.ts` — `detectOdds` (lines 54-479)

`detectOdds` in the source takes an image buffer, runs OCR, cleans the
recognized text and then extracts the odds pair from the cleaned text with a
cascade of strategies.  The OCR step is an external boundary; the embedding
`detectOddsText` starts at the recognized text (the argument of the cleaning
step at line 84) and mirrors the cascade from there. -/

/-- `m.startsWith('+') || m.startsWith('-') ? m : '+' + m`. -/
def ensureSign (s : List Char) : List Char :=
  if s.head? == some '+' || s.head? == some '-' then s else '+' :: s

/-- `m.startsWith('+') ? m : '+' + m` (used by the general Was fallback). -/
def ensurePlus (s : List Char) : List Char :=
  if s.head? == some '+' then s else '+' :: s

/-- `/^\d+[a-zA-Z]$/.test(s)`. -/
def digitsThenLetterTest (cs : List Char) : Bool :=
  let ds := cs.takeWhile isDigitChar
  !ds.isEmpty && (match cs.dropWhile isDigitChar with
    | c :: [] => isAsciiLetter c
    | _ => false)

/-- The final double-check of the Was/Now full-match strategy (lines
341-347): `parseInt` of the odds with their first `+` removed, `null` unless
post is strictly greater than pre. -/
def wasNowFinalCheck (preOdds postOdds : List Char) : Option (List Char × List Char) :=
  let finalPreValue := parseIntJS (replaceFirstSub ('+' :: []) [] preOdds)
  let finalPostValue := parseIntJS (replaceFirstSub ('+' :: []) [] postOdds)
  if nanLe finalPostValue finalPreValue then none
  else some (preOdds, postOdds)

/-- The validation body of the Was/Now full-match strategy (lines 320-352),
on the two captured digit strings: prefix both with `+`; if post < pre, swap
them once, but bail out (`null`) when the re-check `parseInt(nowNum) <
parseInt(wasNum)` — the same comparison — fails again; finally run the
`post > pre` double-check. -/
def wasNowFullValidate (wasNum nowNum : List Char) : Option (List Char × List Char) :=
  let preValue := parseIntJS wasNum
  let postValue := parseIntJS nowNum
  if nanLt postValue preValue then
    if nanLt (parseIntJS nowNum) (parseIntJS wasNum) then none
    else wasNowFinalCheck ('+' :: nowNum) ('+' :: wasNum)
  else wasNowFinalCheck ('+' :: wasNum) ('+' :: nowNum)

/-- Embedded from `detectOdds` (lines 54-479) starting at the OCR text: the
cleaning pass followed by the ordered extraction cascade.  The
`numberPatterns` loop (lines 445-450) and all `console.log` calls only log
and are omitted. -/
def detectOddsText (text : List Char) : Option (List Char) × Option (List Char) := Id.run do
  let textToAnalyze := cleanOcrText text
  let mut preBoost : Option (List Char) := none
  let mut postBoost : Option (List Char) := none

  -- SIMPLE: direct odds extraction (lines 130-154)
  let directOddsMatch := reSearch false directOddsRe textToAnalyze
  match directOddsMatch, preBoost, postBoost with
  | some dm, none, none =>
    let oddsValue := dm.matched
    preBoost := some oddsValue
    let allOddsMatches := reMatchAll false allOddsNumRe textToAnalyze
    for m in allOddsMatches do
      let cleanMatch := ensureSign m.matched
      if some cleanMatch != preBoost then
        postBoost := some cleanMatch
        break
  | _, _, _ => pure ()

  -- PRIMARY: `Was ±XXXX [>→»] Now ±YYYY` (lines 164-172), returns directly
  let wasNowSeparatorPattern := reSearch true wasNowSeparatorRe textToAnalyze
  match wasNowSeparatorPattern with
  | some m =>
    preBoost := some (ensureSign (capGet m.caps 1))
    postBoost := some (ensureSign (capGet m.caps 2))
    return (preBoost, postBoost)
  | none => pure ()

  -- SECONDARY: `Was ±XXXX` then a later `Now ±YYYY` (lines 175-208)
  let simpleWasPattern := reSearch true simpleWasRe textToAnalyze
  match simpleWasPattern, preBoost, postBoost with
  | some m, none, none =>
    preBoost := some (ensureSign (capGet m.caps 1))
    let nowPattern := reSearch true nowRe textToAnalyze
    match nowPattern with
    | some nm =>
      postBoost := some (ensureSign (capGet nm.caps 1))
      return (preBoost, postBoost)
    | none => pure ()
    let afterWasText :=
      textToAnalyze.drop (indexOfSub textToAnalyze m.matched + m.matched.length)
    let nextOddsMatch := reSearch false nextOddsRe afterWasText
    match nextOddsMatch with
    | some nx =>
      let nextOdds := ensureSign (capGet nx.caps 1)
      if some nextOdds != preBoost then
        postBoost := some nextOdds
    | none => pure ()
    if preBoost.isSome && postBoost.isSome then
      return (preBoost, postBoost)
  | _, _, _ => pure ()

  -- ENHANCED: alternative separators (lines 211-225)
  for re in [altSepRe1, altSepRe2, altSepRe3] do
    let m := reSearch true re textToAnalyze
    match m, preBoost, postBoost with
    | some mm, none, none =>
      preBoost := some (ensureSign (capGet mm.caps 1))
      postBoost := some (ensureSign (capGet mm.caps 2))
      return (preBoost, postBoost)
    | _, _, _ => pure ()

  -- OCR CORRECTION after a recognized `Was ±XXXX` (lines 228-266)
  let wasWithOcrError := reSearch true wasWithOcrErrorRe textToAnalyze
  match wasWithOcrError, preBoost, postBoost with
  | some m, none, none =>
    preBoost := some (ensureSign (capGet m.caps 1))
    let ocrText := capGet m.caps 2
    let mut correctedOdds : Option (List Char) := none
    if toLowerEqLit ocrText ('1' :: 'b' :: []) then
      correctedOdds := some ('+' :: '1' :: '8' :: '0' :: '0' :: [])
    else if toLowerEqLit ocrText ('l' :: 'b' :: []) then
      correctedOdds := some ('+' :: '1' :: '8' :: '0' :: [])
    else if digitsThenLetterTest ocrText then
      let numPart := ocrText.takeWhile isDigitChar
      if !numPart.isEmpty then
        correctedOdds := some ('+' :: (numPart ++ '0' :: []))
    if correctedOdds.isSome then
      postBoost := correctedOdds
      return (preBoost, postBoost)
  | _, _, _ => pure ()

  -- FALLBACK: `Was` followed by any two odds numbers (lines 269-275)
  let wasGeneralPattern := reSearch true wasGeneralRe textToAnalyze
  match wasGeneralPattern, preBoost, postBoost with
  | some m, none, none =>
    preBoost := some (ensurePlus (capGet m.caps 1))
    postBoost := some (ensurePlus (capGet m.caps 2))
    return (preBoost, postBoost)
  | _, _, _ => pure ()

  -- same-line Was/Now (lines 278-285)
  let sameLineWasNow := reSearch true sameLineWasNowRe textToAnalyze
  match sameLineWasNow, preBoost, postBoost with
  | some m, none, none =>
    preBoost := some (ensureSign (capGet m.caps 1))
    postBoost := some (ensureSign (capGet m.caps 2))
    return (preBoost, postBoost)
  | _, _, _ => pure ()

  -- standalone `Was`, then any larger number (lines 288-310)
  let standaloneWasMatch := reSearch true standaloneWasRe textToAnalyze
  match standaloneWasMatch, preBoost, postBoost with
  | some m, none, none =>
    let wasValue := parseIntJS (capGet m.caps 1)
    preBoost := some ('+' :: capGet m.caps 1)
    let allOddsMatches := reMatchAll false allOddsNumRe textToAnalyze
    for om in allOddsMatches do
      let cleanOdds := removeFirstSign om.matched
      let oddsValue := parseIntJS cleanOdds
      if nanLt wasValue oddsValue && nanNe oddsValue wasValue then
        postBoost := some ('+' :: cleanOdds)
        break
  | _, _, _ => pure ()

  -- PRIORITY CHECK: Was/Now full match with sanity validation (lines 313-354)
  let wasNowFullMatch := reMatchAll true wasNowFullRe textToAnalyze
  if wasNowFullMatch.length > 0 then
    let fullMatch := (wasNowFullMatch.headD default).matched
    let wasNum := reSearch true standaloneWasRe fullMatch
    let nowNum := reSearch true vNowRe fullMatch
    match wasNum, nowNum, preBoost, postBoost with
    | some wm, some nm, none, none =>
      match wasNowFullValidate (capGet wm.caps 1) (capGet nm.caps 1) with
      | some pq => return (some pq.1, some pq.2)
      | none => return (none, none)
    | _, _, _, _ => pure ()

  -- `Wos` misread pattern with its own validation (lines 357-393)
  let wosPattern := reSearch true wosRe textToAnalyze
  match wosPattern, preBoost, postBoost with
  | some m, none, none =>
    preBoost := some (ensureSign (capGet m.caps 1))
    let postMatch := capGet m.caps 2
    if postMatch.head? == some 'i' || postMatch.head? == some 'v' then
      postBoost := some ('+' :: '1' :: postMatch.tail)
    else if postMatch == ('5' :: '5' :: '7' :: '8' :: []) then
      postBoost := some ('+' :: '8' :: '5' :: '7' :: '8' :: [])
    else if !(postMatch.head? == some '+') && !(postMatch.head? == some '-') then
      postBoost := some ('+' :: postMatch)
    else
      postBoost := some postMatch
    let preValue := parseIntJS ((preBoost.getD []).filter (fun c => !(isSignChar c)))
    let postValue := parseIntJS ((postBoost.getD []).filter (fun c => !(isSignChar c)))
    if nanLe postValue preValue then
      return (none, none)
    return (preBoost, postBoost)
  | _, _, _ => pure ()

  -- individual Was/Now patterns (lines 396-414)
  if preBoost.isNone || postBoost.isNone then
    for re in [wasNowP1, wasNowP2, wasNowP3] do
      let foundMatches := reMatchAll true re textToAnalyze
      for m in foundMatches do
        if includesCI ('w' :: 'a' :: 's' :: []) m.matched && preBoost.isNone then
          preBoost := some ('+' :: capGet m.caps 1)
        if includesCI ('n' :: 'o' :: 'w' :: []) m.matched && postBoost.isNone then
          postBoost := some ('+' :: capGet m.caps 1)

  -- NEW: a `Was` value but no `Now` value yet (lines 417-443)
  if preBoost.isSome && postBoost.isNone then
    let allNumbers := reMatchAll false allOddsNumRe textToAnalyze
    let preBoostValue := parseIntJS ((preBoost.getD []).filter (fun c => !(isSignChar c)))
    for nm in allNumbers do
      let numberValue := parseIntJS (nm.matched.filter (fun c => !(isSignChar c)))
      if nanNe numberValue preBoostValue && nanLt (some 100) numberValue &&
          nanLt numberValue (some 10000) then
        postBoost := some (ensureSign nm.matched)
        if nanLt (some 0) preBoostValue && nanLt preBoostValue numberValue then
          break
        else if nanLt (some 0) preBoostValue && nanLt numberValue preBoostValue then
          break

  -- final single Was / Now matches (lines 452-464); the captured group is
  -- used as-is, without sign normalization
  let wasMatch := reSearch true simpleWasRe textToAnalyze
  let nowMatch := reSearch true nowRe textToAnalyze
  match wasMatch, preBoost with
  | some m, none => preBoost := some (capGet m.caps 1)
  | _, _ => pure ()
  match nowMatch, postBoost with
  | some m, none => postBoost := some (capGet m.caps 1)
  | _, _ => pure ()
  return (preBoost, postBoost)

/-- `detectOdds` on OCR text, at the `String` interface. -/
def detectOddsStr (text : String) : Option String × Option String :=
  let r := detectOddsText text.toList
  (r.1.map (fun l => String.mk l), r.2.map (fun l => String.mk l))

/-! ### `text-detection/index.ts` — `parsePercentageFromText` (lines 547-629) -/

/-- `(\d+)` (greedy, at least one digit) captured as group 1. -/
def grpDigits1 : RE := RE.grp 1 (RE.rep isDigitChar 1 none false)

/-- `(\d{1,3})` captured as group 1. -/
def grpDigits13 : RE := RE.grp 1 (RE.rep isDigitChar 1 (some 3) false)

/-- `[%oO0]`. -/
def pctLikeCls : RE :=
  RE.cls (fun c => c.toNat == 37 || c.toNat == 111 || c.toNat == 79 || c.toNat == 48)

/-- `[=\-~]*`. -/
def eqDashRun : RE :=
  RE.rep (fun c => c.toNat == 61 || c.toNat == 45 || c.toNat == 126) 0 none false

/-- `[Bb][Oo0][Oo0][Ss][Tt]` (already case-closed in the source). -/
def boostGarbled : RE :=
  reCat [RE.cls (fun c => lowerN c.toNat == 98),
         RE.cls (fun c => lowerN c.toNat == 111 || c.toNat == 48),
         RE.cls (fun c => lowerN c.toNat == 111 || c.toNat == 48),
         RE.cls (fun c => lowerN c.toNat == 115),
         RE.cls (fun c => lowerN c.toNat == 116)]

/-- `B[ao0][ao0][sc][ts]` (under `/i`). -/
def boostClassTail : RE :=
  reCat [RE.cls (fun c => lowerN c.toNat == 98),
         RE.cls (fun c => lowerN c.toNat == 97 || lowerN c.toNat == 111 || c.toNat == 48),
         RE.cls (fun c => lowerN c.toNat == 97 || lowerN c.toNat == 111 || c.toNat == 48),
         RE.cls (fun c => lowerN c.toNat == 115 || lowerN c.toNat == 99),
         RE.cls (fun c => lowerN c.toNat == 116 || lowerN c.toNat == 115)]

/-- The `patterns` array of `parsePercentageFromText` (lines 549-578), in
source order, each with its case-insensitivity flag. -/
def percentagePatterns : List (RE × Bool) :=
  [ (reCat [grpDigits1, RE.lit ('%' :: []), reWs0, RE.lit ('B' :: 'o' :: 'o' :: 's' :: 't' :: [])], true),
    (reCat [grpDigits1, RE.lit ('%' :: []), reWs0, RE.lit ('b' :: 'o' :: 'o' :: 's' :: 't' :: [])], true),
    (reCat [grpDigits1, RE.lit ('%' :: []), RE.lit ('B' :: 'o' :: 'o' :: 's' :: 't' :: [])], true),
    (reCat [grpDigits1, RE.lit ('%' :: []), RE.lit ('b' :: 'o' :: 'o' :: 's' :: 't' :: [])], true),
    (reCat [grpDigits1, reWs0, RE.lit ('%' :: []), reWs0, RE.lit ('B' :: 'o' :: 'o' :: 's' :: 't' :: [])], true),
    (reCat [grpDigits1, reWs0, RE.lit ('%' :: []), reWs0, RE.lit ('b' :: 'o' :: 'o' :: 's' :: 't' :: [])], true),
    (reCat [RE.lit ('B' :: 'o' :: 'o' :: 's' :: 't' :: []), reWs0, grpDigits1, RE.lit ('%' :: [])], true),
    (reCat [RE.lit ('b' :: 'o' :: 'o' :: 's' :: 't' :: []), reWs0, grpDigits1, RE.lit ('%' :: [])], true),
    (reCat [RE.lit ('o' :: 'f' :: []), reWs0, grpDigits1, RE.lit ('%' :: []), reWs0, RE.lit ('B' :: 'o' :: 'o' :: 's' :: 't' :: [])], true),
    (reCat [RE.lit ('o' :: 'f' :: []), reWs0, grpDigits1, RE.lit ('%' :: []), RE.lit ('B' :: 'o' :: 'o' :: 's' :: 't' :: [])], true),
    (reCat [grpDigits13, reWs0, RE.lit ('%' :: [])], false),
    (reCat [grpDigits13, reWs0, RE.lit ('p' :: 'e' :: 'r' :: 'c' :: 'e' :: 'n' :: 't' :: [])], true),
    (reCat [grpDigits1, RE.lit ('%' :: []), reWs0, RE.lit ('B' :: 'a' :: 'a' :: 'c' :: 't' :: [])], true),
    (reCat [grpDigits1, RE.lit ('%' :: []), reWs0, RE.lit ('B' :: 'o' :: 'a' :: 'c' :: 't' :: [])], true),
    (reCat [grpDigits1, RE.lit ('%' :: []), reWs0, RE.lit ('B' :: 'o' :: 's' :: 't' :: [])], true),
    (reCat [grpDigits1, RE.lit ('%' :: []), reWs0, RE.lit ('B' :: 'o' :: 'c' :: 's' :: 't' :: [])], true),
    (reCat [grpDigits1, RE.lit ('%' :: []), reWs0, RE.lit ('B' :: 'a' :: 'a' :: 'c' :: 's' :: 't' :: [])], true),
    (reCat [grpDigits1, RE.lit ('%' :: []), reWs0, boostClassTail], true),
    (reCat [RE.lit ('a' :: 'l' :: []), reWs0, eqDashRun, reWs0, grpDigits1, pctLikeCls], true),
    (reCat [RE.lit ('p' :: 'r' :: []), reWs0, eqDashRun, reWs0, grpDigits1, pctLikeCls], true),
    (reCat [grpDigits1, reWs0, pctLikeCls, reWs0, boostGarbled], true),
    (reCat [boostGarbled, reWs0, grpDigits1], true) ]

/-- JS `text.split(/\s+/)`: pieces between whitespace runs, keeping the empty
leading/trailing pieces the JS `split` produces. -/
def splitWsAux : Nat → List Char → List Char → List (List Char)
  | 0, _, acc => [acc.reverse]
  | _ + 1, [], acc => [acc.reverse]
  | fuel + 1, c :: rest, acc =>
    if isWsChar c then
      acc.reverse :: splitWsAux fuel (rest.dropWhile isWsChar) []
    else splitWsAux fuel rest (c :: acc)

def jsSplitWs (cs : List Char) : List (List Char) := splitWsAux (cs.length + 1) cs []

/-- `words.indexOf(word)` — index of the first occurrence. -/
def jsIndexOfWord (words : List (List Char)) (word : List Char) : Nat :=
  ((List.range words.length).find? (fun i => words.getD i [] == word)).getD 0

/-- The "is the next word a form of Boost" test of lines 595-599. -/
def isBoostWordCheck (nextWordLower : List Char) : Bool :=
  includesCI ('b' :: 'o' :: 'o' :: 's' :: 't' :: []) nextWordLower ||
  includesCI ('b' :: 'a' :: 'a' :: 'c' :: 't' :: []) nextWordLower ||
  includesCI ('b' :: 'o' :: 'a' :: 'c' :: 't' :: []) nextWordLower ||
  includesCI ('b' :: 'o' :: 's' :: 't' :: []) nextWordLower ||
  includesCI ('b' :: 'o' :: 'c' :: 's' :: 't' :: []) nextWordLower

/-- The word-scan of lines 583-606: for each whitespace-separated word, strip
the non-digits, `parseInt`, keep values in `[5, 1000]` whose following word
looks like "Boost" (or whose own text contains `%`).  `words.indexOf(word)`
finds the first occurrence, exactly as in the source. -/
def wordScanCandidates (words : List (List Char)) : List Nat :=
  words.filterMap (fun word =>
    match parseDigitsNat (word.filter isDigitChar) with
    | none => none
    | some num =>
      if 5 ≤ num ∧ num ≤ 1000 then
        let index := jsIndexOfWord words word
        let nextWord := words.getD (index + 1) []
        if isBoostWordCheck nextWord || word.any (fun c => c == '%') then some num
        else none
      else none)

/-- The regex pass of lines 609-618: `matchAll` every pattern, `parseInt` the
first capture group, keep values in `[1, 1000]`. -/
def patternCandidates (text : List Char) : List Nat :=
  percentagePatterns.flatMap (fun pc =>
    (reMatchAll pc.2 pc.1 text).filterMap (fun m =>
      match parseDigitsNat (capGet m.caps 1) with
      | none => none
      | some percentage =>
        if 1 ≤ percentage ∧ percentage ≤ 1000 then some percentage else none))

/-- All candidates collected by `parsePercentageFromText`, word-scan hits
first (push order of the source). -/
def foundPercentages (text : List Char) : List Nat :=
  wordScanCandidates (jsSplitWs text) ++ patternCandidates text

/-- `Math.max` over a list of naturals. -/
def listMaxNat : List Nat → Nat
  | [] => 0
  | a :: rest => max a (listMaxNat rest)

/-- Embedded from `parsePercentageFromText` (lines 547-629): collect all
candidates, de-duplicate (`new Set`), and return the maximum; `null` when no
candidate was found. -/
def parsePercentageFromText (text : List Char) : Option Nat :=
  let found := foundPercentages text
  if found.length > 0 then
    let uniquePercentages := found.dedup
    some (listMaxNat uniquePercentages)
  else none

/-! ### Auxiliary definitions used by the statements below -/

/-- The percentage rule as the claim states it: computed directly from the
signed raw American odds values as `((now - was) / was) * 100` rounded to one
decimal place, with no American-to-decimal conversion, and null whenever an
odds value is missing, unparseable, or the was-value is zero. -/
def specDirectBoostPercentage (originalOdds boostedOdds : Option String) : Option ℚ :=
  match originalOdds, boostedOdds with
  | some o, some b =>
    match parseFloatJS (stripToNumericChars o), parseFloatJS (stripToNumericChars b) with
    | some wasValue, some nowValue =>
      if wasValue = 0 then none
      else some (jsRound1 (((nowValue - wasValue) / wasValue) * 100))
    | _, _ => none
  | _, _ => none

/-- The state of part_007 right after start-up (all counters cleared,
start time taken as 0). -/
def initialMonitorState : MonitorState :=
  { lastBoostData := none,
    consecutiveNumberFailures := 0,
    numberFailureNotified := false,
    lastUniqueBoostTime := 0,
    noNewBoostNotified := false,
    totalBoostsDetected := 0,
    lastNotificationTime := 0,
    lastDetectedPercentage := 0 }

/-- A concrete successful capture used by the witnesses. -/
def sampleScreenData : ScreenData :=
  { cropFailed := false, cropTooSmall := false,
    originalOdds := some "+950", boostedOdds := some "+1129" }

/-! ## Helper lemmas -/

theorem isDigitChar_toNat {c : Char} (h : isDigitChar c = true) :
    48 ≤ c.toNat ∧ c.toNat ≤ 57 := by
  simpa [isDigitChar] using h

theorem digit_not_ws {c : Char} (h : isDigitChar c = true) : isWsChar c = false := by
  have h2 := isDigitChar_toNat h
  simp [isWsChar]
  omega

theorem digit_not_sign {c : Char} (h : isDigitChar c = true) : isSignChar c = false := by
  have h2 := isDigitChar_toNat h
  simp [isSignChar]
  omega

theorem takeWhile_all {p : Char → Bool} {l : List Char} (h : ∀ c ∈ l, p c = true) :
    l.takeWhile p = l := by
  induction l with
  | nil => rfl
  | cons a t ih =>
    simp [List.takeWhile_cons, h a (by simp)]
    intro c hc
    exact h c (by simp [hc])

theorem filter_all {p : Char → Bool} {l : List Char} (h : ∀ c ∈ l, p c = true) :
    l.filter p = l := by
  induction l with
  | nil => rfl
  | cons a t ih =>
    simp [List.filter_cons, h a (by simp)]
    intro c hc
    exact h c (by simp [hc])

theorem parseDigitsNat_digits {ds : List Char} (h1 : ds ≠ [])
    (h2 : ∀ c ∈ ds, isDigitChar c = true) :
    parseDigitsNat ds = some (natOfDigits ds) := by
  unfold parseDigitsNat
  rw [takeWhile_all h2]
  simp [h1]

theorem parseIntJS_digits {ds : List Char} (h1 : ds ≠ [])
    (h2 : ∀ c ∈ ds, isDigitChar c = true) :
    parseIntJS ds = some ((natOfDigits ds : Int)) := by
  cases ds with
  | nil => exact absurd rfl h1
  | cons c t =>
    have hc : isDigitChar c = true := h2 c (by simp)
    have hw : isWsChar c = false := digit_not_ws hc
    have hn := isDigitChar_toNat hc
    unfold parseIntJS
    rw [List.dropWhile_cons, if_neg (by simp [hw])]
    simp only [List.head?]
    rw [if_neg (by simp; omega), if_neg (by simp; omega)]
    rw [parseDigitsNat_digits h1 h2]
    rfl

theorem parseFloatJS_digits {ds : List Char} (h1 : ds ≠ [])
    (h2 : ∀ c ∈ ds, isDigitChar c = true) :
    parseFloatJS ds = some ((natOfDigits ds : ℚ)) := by
  cases ds with
  | nil => exact absurd rfl h1
  | cons c t =>
    have hc : isDigitChar c = true := h2 c (by simp)
    have hw : isWsChar c = false := digit_not_ws hc
    have hn := isDigitChar_toNat hc
    unfold parseFloatJS
    rw [List.dropWhile_cons, if_neg (by simp [hw])]
    simp only [List.head?]
    rw [if_neg (by simp; omega), if_neg (by simp; omega)]
    unfold parseFloatMag
    rw [takeWhile_all h2]
    have hdrop : (c :: t).dropWhile isDigitChar = [] := by
      rw [List.dropWhile_eq_nil_iff]
      intro x hx
      exact h2 x hx
    rw [hdrop]
    simp [h1]
    rfl

theorem toList_mk (cs : List Char) : (String.mk cs).toList = cs := rfl

theorem filter_not_sign_digits {ds : List Char} (h : ∀ c ∈ ds, isDigitChar c = true) :
    ds.filter (fun c => !(isSignChar c)) = ds :=
  filter_all (fun c hc => by simp [digit_not_sign (h c hc)])

theorem americanToDecimal_plus {ds : List Char} (h1 : ds ≠ [])
    (h2 : ∀ c ∈ ds, isDigitChar c = true) :
    americanToDecimal (String.mk ('+' :: ds)) = some ((natOfDigits ds : ℚ) / 100 + 1) := by
  have hfilter : ('+' :: ds).filter (fun c => !(isSignChar c)) = ds := by
    rw [List.filter_cons, if_neg (by decide)]
    exact filter_not_sign_digits h2
  unfold americanToDecimal
  rw [toList_mk, hfilter, parseIntJS_digits h1 h2]
  rfl

theorem americanToDecimal_minus {ds : List Char} (h1 : ds ≠ [])
    (h2 : ∀ c ∈ ds, isDigitChar c = true) :
    americanToDecimal (String.mk ('-' :: ds)) = some (100 / (natOfDigits ds : ℚ) + 1) := by
  have hfilter : ('-' :: ds).filter (fun c => !(isSignChar c)) = ds := by
    rw [List.filter_cons, if_neg (by decide)]
    exact filter_not_sign_digits h2
  unfold americanToDecimal
  rw [toList_mk, hfilter, parseIntJS_digits h1 h2]
  rfl

theorem americanToDecimal_nosign {ds : List Char} (h1 : ds ≠ [])
    (h2 : ∀ c ∈ ds, isDigitChar c = true) :
    americanToDecimal (String.mk ds) = some ((natOfDigits ds : ℚ) / 100 + 1) := by
  cases ds with
  | nil => exact absurd rfl h1
  | cons c t =>
    have hc := isDigitChar_toNat (h2 c (by simp))
    have hfd := filter_not_sign_digits h2
    have hplusNat : Char.toNat '+' = 43 := by decide
    have hminusNat : Char.toNat '-' = 45 := by decide
    have hne1 : c ≠ '+' := by
      intro hcp
      rw [hcp, hplusNat] at hc
      omega
    have hne2 : c ≠ '-' := by
      intro hcp
      rw [hcp, hminusNat] at hc
      omega
    have e1 : ((c :: t).head? == some '+') = false := by
      simp only [List.head?]
      rw [beq_eq_false_iff_ne]
      simp [hne1]
    have e2 : ((c :: t).head? == some '-') = false := by
      simp only [List.head?]
      rw [beq_eq_false_iff_ne]
      simp [hne2]
    unfold americanToDecimal
    rw [toList_mk, hfd, parseIntJS_digits h1 h2]
    simp only [e1, e2]
    rfl

/-! ## C7 -/

/-- C7: for every American-odds string over a nonzero digit body: with a `+`
sign `americanToDecimal` returns `value / 100 + 1`, which is strictly greater
than 1; with a `-` sign it returns `100 / value + 1` on the unsigned
magnitude, which is strictly positive; an unsigned string converts exactly as
the `+`-signed one. -/
theorem americanToDecimal_c7_bounds (ds : List Char) (h1 : ds ≠ [])
    (h2 : ∀ c ∈ ds, isDigitChar c = true) (h3 : natOfDigits ds ≠ 0) :
    (americanToDecimal (String.mk ('+' :: ds)) = some ((natOfDigits ds : ℚ) / 100 + 1) ∧
      1 < (natOfDigits ds : ℚ) / 100 + 1) ∧
    (americanToDecimal (String.mk ('-' :: ds)) = some (100 / (natOfDigits ds : ℚ) + 1) ∧
      0 < 100 / (natOfDigits ds : ℚ) + 1) ∧
    americanToDecimal (String.mk ds) = americanToDecimal (String.mk ('+' :: ds)) := by
  have hv : (0 : ℚ) < (natOfDigits ds : ℚ) := by
    exact_mod_cast Nat.pos_of_ne_zero h3
  have hdivpos : (0 : ℚ) < (natOfDigits ds : ℚ) / 100 := by positivity
  have hdivpos2 : (0 : ℚ) < 100 / (natOfDigits ds : ℚ) := by positivity
  refine ⟨⟨americanToDecimal_plus h1 h2, by linarith⟩,
          ⟨americanToDecimal_minus h1 h2, by linarith⟩, ?_⟩
  rw [americanToDecimal_plus h1 h2, americanToDecimal_nosign h1 h2]

/-- C7 witness: the theorem applied to the digit body `150`. -/
theorem americanToDecimal_c7_witness :
    (('1' :: '5' :: '0' :: []) ≠ ([] : List Char) ∧
     (∀ c ∈ ('1' :: '5' :: '0' :: []), isDigitChar c = true) ∧
     natOfDigits ('1' :: '5' :: '0' :: []) ≠ 0) ∧
    ((americanToDecimal (String.mk ('+' :: '1' :: '5' :: '0' :: [])) =
        some ((natOfDigits ('1' :: '5' :: '0' :: []) : ℚ) / 100 + 1) ∧
      1 < (natOfDigits ('1' :: '5' :: '0' :: []) : ℚ) / 100 + 1) ∧
     (americanToDecimal (String.mk ('-' :: '1' :: '5' :: '0' :: [])) =
        some (100 / (natOfDigits ('1' :: '5' :: '0' :: []) : ℚ) + 1) ∧
      0 < 100 / (natOfDigits ('1' :: '5' :: '0' :: []) : ℚ) + 1) ∧
     americanToDecimal (String.mk ('1' :: '5' :: '0' :: [])) =
        americanToDecimal (String.mk ('+' :: '1' :: '5' :: '0' :: []))) :=
  ⟨⟨by decide, by decide, by decide⟩,
   americanToDecimal_c7_bounds ('1' :: '5' :: '0' :: []) (by decide) (by decide) (by decide)⟩

/-! ## C6 -/

/-- C6: for every parseable pre/post odds pair, `verifyBoostAccuracy` returns
`calculatedPercentage = ((decimal(post) - decimal(pre)) / decimal(pre)) * 100`
rounded to two decimal places, `discrepancy` the absolute difference to the
detected percentage, and `isSignificant` exactly when the discrepancy reaches
the caller-supplied threshold; `pre = "+100"`, `post = "+150"` yields a
calculated percentage of 25. -/
theorem verifyBoostAccuracy_c6_formula :
    (∀ (detected thr pd qd : ℚ) (pre post : String),
      americanToDecimal pre = some pd → americanToDecimal post = some qd →
      ∃ r, verifyBoostAccuracy detected pre post thr = some r ∧
        r.actualBoostPercentage = jsRound2 (((qd - pd) / pd) * 100) ∧
        r.detectedBoostPercentage = detected ∧
        r.discrepancy = |r.actualBoostPercentage - detected| ∧
        (r.isSignificantDiscrepancy = true ↔ r.discrepancy ≥ thr)) ∧
    (∀ detected : ℚ,
      (verifyBoostAccuracy detected "+100" "+150" 10).map
        (fun r => r.actualBoostPercentage) = some 25) := by
  constructor
  · intro detected thr pd qd pre post hp hq
    have hc : calculateActualBoostPercentage pre post =
        some (jsRound2 (((qd - pd) / pd) * 100)) := by
      unfold calculateActualBoostPercentage
      rw [hp, hq]
    unfold verifyBoostAccuracy
    rw [hc]
    refine ⟨_, rfl, rfl, rfl, rfl, ?_⟩
    simp
  · intro detected
    have hpre : americanToDecimal "+100" = some 2 := by
      have h := @americanToDecimal_plus ('1' :: '0' :: '0' :: []) (by decide) (by decide)
      have e : natOfDigits ('1' :: '0' :: '0' :: []) = 100 := by decide
      rw [e] at h
      rw [show ("+100" : String) = String.mk ('+' :: '1' :: '0' :: '0' :: []) from rfl, h]
      norm_num
    have hpost : americanToDecimal "+150" = some (5 / 2) := by
      have h := @americanToDecimal_plus ('1' :: '5' :: '0' :: []) (by decide) (by decide)
      have e : natOfDigits ('1' :: '5' :: '0' :: []) = 150 := by decide
      rw [e] at h
      rw [show ("+150" : String) = String.mk ('+' :: '1' :: '5' :: '0' :: []) from rfl, h]
      norm_num
    have hc : calculateActualBoostPercentage "+100" "+150" = some 25 := by
      unfold calculateActualBoostPercentage
      rw [hpre, hpost]
      norm_num [jsRound2, jsRound]
    unfold verifyBoostAccuracy
    rw [hc]
    rfl

/-- C6 witness: the formula part applied at `detected = 20`, threshold 10,
`pre = "+100"`, `post = "+150"`. -/
theorem verifyBoostAccuracy_c6_witness :
    americanToDecimal "+100" = some 2 ∧ americanToDecimal "+150" = some (5 / 2) ∧
    (∃ r, verifyBoostAccuracy 20 "+100" "+150" 10 = some r ∧
      r.actualBoostPercentage = jsRound2 (((5 / 2 - 2) / 2) * 100) ∧
      r.detectedBoostPercentage = 20 ∧
      r.discrepancy = |r.actualBoostPercentage - 20| ∧
      (r.isSignificantDiscrepancy = true ↔ r.discrepancy ≥ 10)) :=
  ⟨by
    have h := @americanToDecimal_plus ('1' :: '0' :: '0' :: []) (by decide) (by decide)
    have e : natOfDigits ('1' :: '0' :: '0' :: []) = 100 := by decide
    rw [e] at h
    rw [show ("+100" : String) = String.mk ('+' :: '1' :: '0' :: '0' :: []) from rfl, h]
    norm_num,
   by
    have h := @americanToDecimal_plus ('1' :: '5' :: '0' :: []) (by decide) (by decide)
    have e : natOfDigits ('1' :: '5' :: '0' :: []) = 150 := by decide
    rw [e] at h
    rw [show ("+150" : String) = String.mk ('+' :: '1' :: '5' :: '0' :: []) from rfl, h]
    norm_num,
   verifyBoostAccuracy_c6_formula.1 20 10 2 (5 / 2) "+100" "+150"
    (by
      have h := @americanToDecimal_plus ('1' :: '0' :: '0' :: []) (by decide) (by decide)
      have e : natOfDigits ('1' :: '0' :: '0' :: []) = 100 := by decide
      rw [e] at h
      rw [show ("+100" : String) = String.mk ('+' :: '1' :: '0' :: '0' :: []) from rfl, h]
      norm_num)
    (by
      have h := @americanToDecimal_plus ('1' :: '5' :: '0' :: []) (by decide) (by decide)
      have e : natOfDigits ('1' :: '5' :: '0' :: []) = 150 := by decide
      rw [e] at h
      rw [show ("+150" : String) = String.mk ('+' :: '1' :: '5' :: '0' :: []) from rfl, h]
      norm_num)⟩

theorem computeBoostPercentage_sample :
    computeBoostPercentage (some "+950") (some "+1129") = some (94 / 5) := by
  have h1 : stripToNumericChars "+950" = ('9' :: '5' :: '0' :: []) := by decide
  have h2 : stripToNumericChars "+1129" = ('1' :: '1' :: '2' :: '9' :: []) := by decide
  have p1 := @parseFloatJS_digits ('9' :: '5' :: '0' :: []) (by decide) (by decide)
  have p2 := @parseFloatJS_digits ('1' :: '1' :: '2' :: '9' :: []) (by decide) (by decide)
  have e1 : natOfDigits ('9' :: '5' :: '0' :: []) = 950 := by decide
  have e2 : natOfDigits ('1' :: '1' :: '2' :: '9' :: []) = 1129 := by decide
  rw [e1] at p1
  rw [e2] at p2
  unfold computeBoostPercentage
  simp only [h1, h2, p1, p2]
  norm_num [jsRound1, jsRound]

/-! ## C2 -/

/-- C2: `isDifferentBoost` returns true exactly when the stored identity is
absent or some component of the observed triple differs from the stored one
(exact equality, null equal to null); after a transition stores the observed
triple, re-checking the identical triple returns false. -/
theorem isDifferentBoost_c2_iff :
    (∀ (last : Option BoostData) (pct : ℚ) (w n : Option String),
      isDifferentBoost last pct w n = true ↔
        (last = none ∨ ∃ lb, last = some lb ∧
          (lb.percentage ≠ pct ∨ lb.wasOdds ≠ w ∨ lb.nowOdds ≠ n))) ∧
    (∀ (pct : ℚ) (w n : Option String) (t : Nat),
      isDifferentBoost
        (some { percentage := pct, wasOdds := w, nowOdds := n, timestamp := t })
        pct w n = false) ∧
    (∀ (s : MonitorState) (d : ScreenData) (now : Nat) (pct : ℚ),
      d.cropFailed = false → d.cropTooSmall = false →
      computeBoostPercentage d.originalOdds d.boostedOdds = some pct →
      isDifferentBoost s.lastBoostData pct d.originalOdds d.boostedOdds = true →
      isDifferentBoost (handleScreenData s d now).1.lastBoostData pct
        d.originalOdds d.boostedOdds = false) := by
  constructor
  · intro last pct w n
    cases last with
    | none => simp [isDifferentBoost]
    | some lb =>
      simp only [isDifferentBoost]
      constructor
      · intro h
        right
        refine ⟨lb, rfl, ?_⟩
        by_contra hcon
        push_neg at hcon
        rw [if_neg (by simp [hcon.1]), if_neg (by simp [hcon.2.1]),
            if_neg (by simp [hcon.2.2])] at h
        exact Bool.false_ne_true h
      · rintro (h | ⟨lb2, heq, hdiff⟩)
        · exact absurd h (by simp)
        · have : lb2 = lb := by injection heq.symm
          subst this
          rcases hdiff with h1 | h2 | h3
          · rw [if_pos h1]
          · by_cases h1 : lb2.percentage ≠ pct
            · rw [if_pos h1]
            · rw [if_neg h1, if_pos h2]
          · by_cases h1 : lb2.percentage ≠ pct
            · rw [if_pos h1]
            · by_cases h2 : lb2.wasOdds ≠ w
              · rw [if_neg h1, if_pos h2]
              · rw [if_neg h1, if_neg h2, if_pos h3]
  · constructor
    · intro pct w n t
      simp [isDifferentBoost]
    · intro s d now pct hcf hcs hp hnew
      have hstore : (handleScreenData s d now).1.lastBoostData =
          some { percentage := pct, wasOdds := d.originalOdds, nowOdds := d.boostedOdds,
                 timestamp := now } := by
        unfold handleScreenData
        rw [hcf, hcs, hp]
        simp [hnew]
      rw [hstore]
      simp [isDifferentBoost]

/-- C2 witness: the transition conjunct applied to the start-up state and the
sample capture; the re-check with the identical triple is false. -/
theorem isDifferentBoost_c2_witness :
    (sampleScreenData.cropFailed = false ∧
     computeBoostPercentage sampleScreenData.originalOdds sampleScreenData.boostedOdds =
       some (94 / 5) ∧
     isDifferentBoost initialMonitorState.lastBoostData (94 / 5)
       sampleScreenData.originalOdds sampleScreenData.boostedOdds = true) ∧
    isDifferentBoost
      (handleScreenData initialMonitorState sampleScreenData 5000).1.lastBoostData
      (94 / 5) sampleScreenData.originalOdds sampleScreenData.boostedOdds = false :=
  ⟨⟨rfl, computeBoostPercentage_sample, rfl⟩,
   isDifferentBoost_c2_iff.2.2 initialMonitorState sampleScreenData 5000 (94 / 5)
     rfl rfl computeBoostPercentage_sample rfl⟩

/-! ## C3 -/

/-- C3: on a new-boost transition (successful observation for which
`isDifferentBoost` is true) the handler replaces the stored identity with the
observed triple, resets `consecutiveNumberFailures` to 0 and the failure flag
to false, stamps `lastUniqueBoostTime` with the current time, clears the
stale flag, and emits exactly one outbound boost alert in that cycle. -/
theorem handleScreenData_c3_newBoost (s : MonitorState) (d : ScreenData) (now : Nat) (pct : ℚ)
    (hcf : d.cropFailed = false) (hcs : d.cropTooSmall = false)
    (hp : computeBoostPercentage d.originalOdds d.boostedOdds = some pct)
    (hnew : isDifferentBoost s.lastBoostData pct d.originalOdds d.boostedOdds = true) :
    (handleScreenData s d now).1.lastBoostData =
      some { percentage := pct, wasOdds := d.originalOdds, nowOdds := d.boostedOdds,
             timestamp := now } ∧
    (handleScreenData s d now).1.consecutiveNumberFailures = 0 ∧
    (handleScreenData s d now).1.numberFailureNotified = false ∧
    (handleScreenData s d now).1.lastUniqueBoostTime = now ∧
    (handleScreenData s d now).1.noNewBoostNotified = false ∧
    (handleScreenData s d now).2.countP isBoostAlert = 1 := by
  unfold handleScreenData
  rw [hcf, hcs, hp]
  simp [hnew, List.countP_cons, isBoostAlert]

/-- C3 witness: the theorem applied to the start-up state and the sample
capture `Was +950 / Now +1129` at time 5000. -/
theorem handleScreenData_c3_witness :
    (sampleScreenData.cropFailed = false ∧ sampleScreenData.cropTooSmall = false ∧
     computeBoostPercentage sampleScreenData.originalOdds sampleScreenData.boostedOdds =
       some (94 / 5) ∧
     isDifferentBoost initialMonitorState.lastBoostData (94 / 5)
       sampleScreenData.originalOdds sampleScreenData.boostedOdds = true) ∧
    ((handleScreenData initialMonitorState sampleScreenData 5000).1.lastBoostData =
      some { percentage := 94 / 5, wasOdds := sampleScreenData.originalOdds,
             nowOdds := sampleScreenData.boostedOdds, timestamp := 5000 } ∧
     (handleScreenData initialMonitorState sampleScreenData 5000).1.consecutiveNumberFailures = 0 ∧
     (handleScreenData initialMonitorState sampleScreenData 5000).1.numberFailureNotified = false ∧
     (handleScreenData initialMonitorState sampleScreenData 5000).1.lastUniqueBoostTime = 5000 ∧
     (handleScreenData initialMonitorState sampleScreenData 5000).1.noNewBoostNotified = false ∧
     (handleScreenData initialMonitorState sampleScreenData 5000).2.countP isBoostAlert = 1) :=
  ⟨⟨rfl, rfl, computeBoostPercentage_sample, rfl⟩,
   handleScreenData_c3_newBoost initialMonitorState sampleScreenData 5000 (94 / 5)
     rfl rfl computeBoostPercentage_sample rfl⟩

/-! ## C9 -/

/-- C9: every cycle without a percentage — crop failed, crop too small, or
nothing parsed — increments `consecutiveNumberFailures` by exactly one and
leaves `lastUniqueBoostTime` untouched; every cycle with a parsed percentage
(new boost or repeat) resets the counter to 0 and clears the failure flag. -/
theorem handleScreenData_c9_failureCounting (s : MonitorState) (d : ScreenData) (now : Nat) :
    ((d.cropFailed = true ∨ d.cropTooSmall = true ∨
        computeBoostPercentage d.originalOdds d.boostedOdds = none) →
      (handleScreenData s d now).1.consecutiveNumberFailures =
        s.consecutiveNumberFailures + 1 ∧
      (handleScreenData s d now).1.lastUniqueBoostTime = s.lastUniqueBoostTime) ∧
    (∀ pct, d.cropFailed = false → d.cropTooSmall = false →
      computeBoostPercentage d.originalOdds d.boostedOdds = some pct →
      (handleScreenData s d now).1.consecutiveNumberFailures = 0 ∧
      (handleScreenData s d now).1.numberFailureNotified = false) := by
  constructor
  · intro h
    cases hcf : d.cropFailed with
    | true => simp [handleScreenData, hcf]
    | false =>
      cases hcs : d.cropTooSmall with
      | true => simp [handleScreenData, hcf, hcs]
      | false =>
        have hp : computeBoostPercentage d.originalOdds d.boostedOdds = none := by
          rcases h with h | h | h
          · rw [hcf] at h
            exact absurd h (by simp)
          · rw [hcs] at h
            exact absurd h (by simp)
          · exact h
        simp [handleScreenData, hcf, hcs, hp]
  · intro pct hcf hcs hp
    cases hnb : isDifferentBoost s.lastBoostData pct d.originalOdds d.boostedOdds with
    | true =>
      unfold handleScreenData
      rw [hcf, hcs, hp]
      simp [hnb]
    | false =>
      unfold handleScreenData
      rw [hcf, hcs, hp]
      simp [hnb]

/-- C9 witness: the theorem applied to a crop-failed cycle and to the sample
successful cycle. -/
theorem handleScreenData_c9_witness :
    (({ cropFailed := true, cropTooSmall := false, originalOdds := none,
        boostedOdds := none } : ScreenData).cropFailed = true ∧
     (handleScreenData initialMonitorState
        { cropFailed := true, cropTooSmall := false, originalOdds := none,
          boostedOdds := none } 77).1.consecutiveNumberFailures =
       initialMonitorState.consecutiveNumberFailures + 1 ∧
     (handleScreenData initialMonitorState
        { cropFailed := true, cropTooSmall := false, originalOdds := none,
          boostedOdds := none } 77).1.lastUniqueBoostTime =
       initialMonitorState.lastUniqueBoostTime) ∧
    (computeBoostPercentage sampleScreenData.originalOdds sampleScreenData.boostedOdds =
       some (94 / 5) ∧
     (handleScreenData initialMonitorState sampleScreenData 77).1.consecutiveNumberFailures = 0 ∧
     (handleScreenData initialMonitorState sampleScreenData 77).1.numberFailureNotified = false) :=
  ⟨⟨rfl,
    (handleScreenData_c9_failureCounting initialMonitorState
      { cropFailed := true, cropTooSmall := false, originalOdds := none,
        boostedOdds := none } 77).1 (Or.inl rfl)⟩,
   ⟨computeBoostPercentage_sample,
    (handleScreenData_c9_failureCounting initialMonitorState sampleScreenData 77).2
      (94 / 5) rfl rfl computeBoostPercentage_sample⟩⟩

/-! ## C10 -/

/-- C10: the percentage the handler feeds to the boost decision is computed
directly from the signed raw odds values as `((now - was) / was) * 100`
rounded to one decimal place — with no American-to-decimal conversion and
without consulting the percentage-crop OCR parser — and is null (counted as a
parse failure) whenever either odds value is missing, unparseable, or the
was-value is zero. -/
theorem computeBoostPercentage_c10_directFormula :
    (∀ o b, computeBoostPercentage o b = specDirectBoostPercentage o b) ∧
    (∀ b, computeBoostPercentage none b = none) ∧
    (∀ o, computeBoostPercentage o none = none) ∧
    (∀ s d now, d.cropFailed = false → d.cropTooSmall = false →
      computeBoostPercentage d.originalOdds d.boostedOdds = none →
      (handleScreenData s d now).1.consecutiveNumberFailures =
        s.consecutiveNumberFailures + 1) ∧
    computeBoostPercentage (some "+950") (some "+1129") = some (94 / 5) ∧
    computeBoostPercentage (some "0") (some "+1129") = none := by
  refine ⟨?_, ?_, ?_, ?_, computeBoostPercentage_sample, ?_⟩
  · intro o b
    cases o with
    | none => rfl
    | some o =>
      cases b with
      | none => rfl
      | some b =>
        simp only [computeBoostPercentage, specDirectBoostPercentage]
        cases hpw : parseFloatJS (stripToNumericChars o) with
        | none => simp
        | some w =>
          cases hpn : parseFloatJS (stripToNumericChars b) with
          | none => simp
          | some n =>
            by_cases hw : w = 0
            · simp [hw]
            · simp [hw]
  · intro b
    rfl
  · intro o
    cases o <;> rfl
  · intro s d now hcf hcs hp
    simp [handleScreenData, hcf, hcs, hp]
  · have h1 : stripToNumericChars "0" = ('0' :: []) := by decide
    have p1 := @parseFloatJS_digits ('0' :: []) (by decide) (by decide)
    have e1 : natOfDigits ('0' :: []) = 0 := by decide
    rw [e1] at p1
    unfold computeBoostPercentage
    simp only [h1, p1]
    have h2 : stripToNumericChars "+1129" = ('1' :: '1' :: '2' :: '9' :: []) := by decide
    have p2 := @parseFloatJS_digits ('1' :: '1' :: '2' :: '9' :: []) (by decide) (by decide)
    simp only [h2, p2]
    norm_num

/-- C10 witness: the failure-counting conjunct applied to a cycle whose odds
pair has a zero was-value. -/
theorem computeBoostPercentage_c10_witness :
    (({ cropFailed := false, cropTooSmall := false, originalOdds := some "0",
        boostedOdds := some "+1129" } : ScreenData).cropFailed = false ∧
     computeBoostPercentage (some "0") (some "+1129") = none) ∧
    (handleScreenData initialMonitorState
      { cropFailed := false, cropTooSmall := false, originalOdds := some "0",
        boostedOdds := some "+1129" } 42).1.consecutiveNumberFailures =
      initialMonitorState.consecutiveNumberFailures + 1 :=
  ⟨⟨rfl, computeBoostPercentage_c10_directFormula.2.2.2.2.2⟩,
   computeBoostPercentage_c10_directFormula.2.2.2.1 initialMonitorState
     { cropFailed := false, cropTooSmall := false, originalOdds := some "0",
       boostedOdds := some "+1129" } 42 rfl rfl
     computeBoostPercentage_c10_directFormula.2.2.2.2.2⟩

/-! ## C4 -/

/-- C4 counterexample: with `lastUniqueBoostAt = 0` and the stale flag clear,
the one-check sequence performed exactly at `T + STALE_TIMEOUT` emits no
alert — the guard is the strict `now - lastUniqueBoostTime > TIMEOUT` — which
contradicts the claim that any sequence of checks performed at or after
`T + STALE_TIMEOUT` emits exactly one alert. -/
theorem checkNoNewBoost_c4_counterexample :
    (runNoNewBoostChecks (NO_NEW_BOOST_TIMEOUT :: []) initialMonitorState).2.length = 0 ∧
    (0 : Nat) ≠ 1 := by
  constructor
  · rfl
  · decide

theorem runNoNewBoostChecks_flagged (ts : List Nat) (s : MonitorState)
    (h : s.noNewBoostNotified = true) :
    (runNoNewBoostChecks ts s).1.noNewBoostNotified = true ∧
    (runNoNewBoostChecks ts s).2 = [] := by
  induction ts generalizing s with
  | nil => exact ⟨h, rfl⟩
  | cons t ts ih =>
    have hstep : checkNoNewBoost t s = (s, []) := by
      unfold checkNoNewBoost
      rw [if_neg (by simp [h])]
    simp only [runNoNewBoostChecks, hstep]
    simpa using ih s h

theorem handleScreenData_noNewFlag_cases (s : MonitorState) (d : ScreenData) (now : Nat) :
    (handleScreenData s d now).1.noNewBoostNotified = s.noNewBoostNotified ∨
    (handleScreenData s d now).2.countP isBoostAlert = 1 := by
  unfold handleScreenData
  cases hcf : d.cropFailed with
  | true =>
    left
    simp
  | false =>
    cases hcs : d.cropTooSmall with
    | true =>
      left
      simp
    | false =>
      simp only [Bool.false_eq_true, if_false]
      cases hp : computeBoostPercentage d.originalOdds d.boostedOdds with
      | none =>
        left
        simp [hp]
      | some pct =>
        simp only [hp]
        cases hnb : isDifferentBoost s.lastBoostData pct d.originalOdds d.boostedOdds with
        | true =>
          right
          simp [hnb, List.countP_cons, isBoostAlert]
        | false =>
          left
          simp [hnb]

/-- C4 amended: no alert fires at any check at or before
`T + STALE_TIMEOUT` (in particular at `T + STALE_TIMEOUT - 1`), and exactly
one alert is emitted over any nonempty sequence of checks performed strictly
after `T + STALE_TIMEOUT`; the watch sets the flag on first emission and
never clears it (the handler clears it only on a new-boost transition, which
is the cycle that emits a boost alert). -/
theorem checkNoNewBoost_c4_amended (s : MonitorState) (T : Nat)
    (hT : s.lastUniqueBoostTime = T) (hflag : s.noNewBoostNotified = false) :
    (∀ t, t ≤ T + NO_NEW_BOOST_TIMEOUT → (checkNoNewBoost t s).2 = []) ∧
    (∀ ts, ts ≠ [] → (∀ t ∈ ts, T + NO_NEW_BOOST_TIMEOUT < t) →
      (runNoNewBoostChecks ts s).2 = [Alert.staleAlert] ∧
      (checkNoNewBoost (ts.headD 0) s).2 = [Alert.staleAlert]) ∧
    (∀ t s2, s2.noNewBoostNotified = true →
      (checkNoNewBoost t s2).1.noNewBoostNotified = true ∧
      (checkNoNewBoost t s2).2 = []) ∧
    (∀ s2 d now, s2.noNewBoostNotified = true →
      (handleScreenData s2 d now).1.noNewBoostNotified = false →
      (handleScreenData s2 d now).2.countP isBoostAlert = 1) := by
  refine ⟨?_, ?_, ?_, ?_⟩
  · intro t ht
    unfold checkNoNewBoost
    rw [if_neg]
    intro hcon
    have := hcon.1
    rw [hT] at this
    unfold NO_NEW_BOOST_TIMEOUT at ht this
    omega
  · intro ts hne hts
    cases ts with
    | nil => exact absurd rfl hne
    | cons t rest =>
      have hgt : T + NO_NEW_BOOST_TIMEOUT < t := hts t (by simp)
      have hstep : checkNoNewBoost t s =
          ({ s with noNewBoostNotified := true }, [Alert.staleAlert]) := by
        unfold checkNoNewBoost
        rw [if_pos]
        exact ⟨by rw [hT]; omega, hflag⟩
      have hrest := runNoNewBoostChecks_flagged rest { s with noNewBoostNotified := true } rfl
      constructor
      · simp only [runNoNewBoostChecks, hstep]
        simp [hrest.2]
      · simpa using congrArg Prod.snd hstep
  · intro t s2 h2
    have hstep : checkNoNewBoost t s2 = (s2, []) := by
      unfold checkNoNewBoost
      rw [if_neg (by simp [h2])]
    rw [hstep]
    exact ⟨h2, rfl⟩
  · intro s2 d now h2 hcleared
    rcases handleScreenData_noNewFlag_cases s2 d now with h | h
    · rw [h] at hcleared
      rw [hcleared] at h2
      exact absurd h2 (by simp)
    · exact h

/-- C4 witness: the amended theorem applied to the start-up state — no alert
at `STALE_TIMEOUT - 1`, exactly one over the two checks after the timeout. -/
theorem checkNoNewBoost_c4_witness :
    (initialMonitorState.lastUniqueBoostTime = 0 ∧
     initialMonitorState.noNewBoostNotified = false) ∧
    ((checkNoNewBoost (NO_NEW_BOOST_TIMEOUT - 1) initialMonitorState).2 = [] ∧
     (runNoNewBoostChecks ((NO_NEW_BOOST_TIMEOUT + 1) :: (NO_NEW_BOOST_TIMEOUT + 60000) :: [])
        initialMonitorState).2 = [Alert.staleAlert]) :=
  ⟨⟨rfl, rfl⟩,
   ⟨(checkNoNewBoost_c4_amended initialMonitorState 0 rfl rfl).1
      (NO_NEW_BOOST_TIMEOUT - 1) (by omega),
    ((checkNoNewBoost_c4_amended initialMonitorState 0 rfl rfl).2.1
      ((NO_NEW_BOOST_TIMEOUT + 1) :: (NO_NEW_BOOST_TIMEOUT + 60000) :: [])
      (by simp) (by intro t ht; simp at ht; rcases ht with h | h <;> omega)).1⟩⟩

/-! ## C5 -/

theorem runNumberFailureChecks_flagged (k : Nat) (s : MonitorState)
    (h : s.numberFailureNotified = true) :
    (runNumberFailureChecks k s).1.numberFailureNotified = true ∧
    (runNumberFailureChecks k s).2 = [] := by
  induction k generalizing s with
  | zero => exact ⟨h, rfl⟩
  | succ k ih =>
    have hstep : checkNumberFailures s = (s, []) := by
      unfold checkNumberFailures
      rw [if_neg (by simp [h])]
    simp only [runNumberFailureChecks, hstep]
    simpa using ih s h

theorem handleScreenData_failFlag_cases (s : MonitorState) (d : ScreenData) (now : Nat) :
    (handleScreenData s d now).1.numberFailureNotified = s.numberFailureNotified ∨
    computeBoostPercentage d.originalOdds d.boostedOdds ≠ none := by
  unfold handleScreenData
  cases hcf : d.cropFailed with
  | true =>
    left
    simp
  | false =>
    cases hcs : d.cropTooSmall with
    | true =>
      left
      simp
    | false =>
      simp only [Bool.false_eq_true, if_false]
      cases hp : computeBoostPercentage d.originalOdds d.boostedOdds with
      | none =>
        left
        simp [hp]
      | some pct =>
        right
        simp

/-- C5: once `consecutiveParseFailures` has reached `MAX_FAILURES` (6) with
the alert flag clear, any number of successive watch checks with no
intervening successful parse emits the failure alert exactly once (on the
first check); the watch itself never clears the flag or changes the counter,
and the handler clears the flag only on a cycle whose parse succeeded. -/
theorem checkNumberFailures_c5_edgeTriggered (s : MonitorState)
    (hcnt : s.consecutiveNumberFailures ≥ MAX_NUMBER_FAILURES)
    (hflag : s.numberFailureNotified = false) :
    (∀ k, 1 ≤ k → (runNumberFailureChecks k s).2 = [Alert.failureAlert]) ∧
    (checkNumberFailures s).2 = [Alert.failureAlert] ∧
    (∀ s2, s2.numberFailureNotified = true →
      (checkNumberFailures s2).1.numberFailureNotified = true ∧
      (checkNumberFailures s2).2 = []) ∧
    (∀ s2, (checkNumberFailures s2).1.consecutiveNumberFailures =
      s2.consecutiveNumberFailures) ∧
    (∀ s2 d now, s2.numberFailureNotified = true →
      (handleScreenData s2 d now).1.numberFailureNotified = false →
      computeBoostPercentage d.originalOdds d.boostedOdds ≠ none) := by
  have hstep : checkNumberFailures s =
      ({ s with numberFailureNotified := true }, [Alert.failureAlert]) := by
    unfold checkNumberFailures
    rw [if_pos ⟨hcnt, hflag⟩]
  refine ⟨?_, by simpa using congrArg Prod.snd hstep, ?_, ?_, ?_⟩
  · intro k hk
    cases k with
    | zero => omega
    | succ k =>
      have hrest := runNumberFailureChecks_flagged k
        { s with numberFailureNotified := true } rfl
      simp only [runNumberFailureChecks, hstep]
      simp [hrest.2]
  · intro s2 h2
    have hstep : checkNumberFailures s2 = (s2, []) := by
      unfold checkNumberFailures
      rw [if_neg (by simp [h2])]
    rw [hstep]
    exact ⟨h2, rfl⟩
  · intro s2
    unfold checkNumberFailures
    by_cases h : s2.consecutiveNumberFailures ≥ MAX_NUMBER_FAILURES ∧
        s2.numberFailureNotified = false
    · rw [if_pos h]
    · rw [if_neg h]
  · intro s2 d now h2 hcleared
    rcases handleScreenData_failFlag_cases s2 d now with h | h
    · rw [h] at hcleared
      rw [hcleared] at h2
      exact absurd h2 (by simp)
    · exact h

/-- C5 witness: the theorem applied to a state with 6 consecutive failures,
running two successive checks. -/
theorem checkNumberFailures_c5_witness :
    (({ initialMonitorState with consecutiveNumberFailures := 6 }
        : MonitorState).consecutiveNumberFailures ≥ MAX_NUMBER_FAILURES ∧
     ({ initialMonitorState with consecutiveNumberFailures := 6 }
        : MonitorState).numberFailureNotified = false) ∧
    (runNumberFailureChecks 2
      { initialMonitorState with consecutiveNumberFailures := 6 }).2 = [Alert.failureAlert] :=
  ⟨⟨by decide, rfl⟩,
   (checkNumberFailures_c5_edgeTriggered
      { initialMonitorState with consecutiveNumberFailures := 6 }
      (by decide) rfl).1 2 (by decide)⟩

/-! ## C8 -/

theorem listMaxNat_mem : ∀ (l : List Nat), l ≠ [] → listMaxNat l ∈ l := by
  intro l
  induction l with
  | nil => intro h; exact absurd rfl h
  | cons a rest ih =>
    intro _
    cases hr : rest with
    | nil => simp [listMaxNat]
    | cons b t =>
      rw [← hr]
      by_cases hle : listMaxNat rest ≤ a
      · simp [listMaxNat, max_eq_left hle]
      · have hmem := ih (by rw [hr]; simp)
        simp only [listMaxNat, max_eq_right (le_of_not_le hle)]
        exact List.mem_cons_of_mem a hmem

theorem le_listMaxNat : ∀ (l : List Nat) (x : Nat), x ∈ l → x ≤ listMaxNat l := by
  intro l
  induction l with
  | nil => intro x hx; exact absurd hx (by simp)
  | cons a rest ih =>
    intro x hx
    rcases List.mem_cons.mp hx with h | h
    · subst h
      simp [listMaxNat]
    · calc x ≤ listMaxNat rest := ih x h
        _ ≤ listMaxNat (a :: rest) := by simp [listMaxNat]

theorem wordScanCandidates_bounds (words : List (List Char)) :
    ∀ x ∈ wordScanCandidates words, 5 ≤ x ∧ x ≤ 1000 := by
  intro x hx
  unfold wordScanCandidates at hx
  rcases List.mem_filterMap.mp hx with ⟨w, _, hw⟩
  cases hpd : parseDigitsNat (w.filter isDigitChar) with
  | none => rw [hpd] at hw; exact absurd hw (by simp)
  | some num =>
    rw [hpd] at hw
    simp only [] at hw
    by_cases hr : 5 ≤ num ∧ num ≤ 1000
    · rw [if_pos hr] at hw
      split_ifs at hw with hb
      injection hw with hw
      subst hw
      exact hr
    · rw [if_neg hr] at hw
      exact absurd hw (by simp)

theorem patternCandidates_bounds (text : List Char) :
    ∀ x ∈ patternCandidates text, 1 ≤ x ∧ x ≤ 1000 := by
  intro x hx
  unfold patternCandidates at hx
  rcases List.mem_flatMap.mp hx with ⟨pc, _, hpc⟩
  rcases List.mem_filterMap.mp hpc with ⟨m, _, hm⟩
  cases hpd : parseDigitsNat (capGet m.caps 1) with
  | none => rw [hpd] at hm; exact absurd hm (by simp)
  | some percentage =>
    rw [hpd] at hm
    simp only [] at hm
    by_cases hr : 1 ≤ percentage ∧ percentage ≤ 1000
    · rw [if_pos hr] at hm
      injection hm with hm
      subst hm
      exact hr
    · rw [if_neg hr] at hm
      exact absurd hm (by simp)

theorem foundPercentages_bounds (text : List Char) :
    ∀ x ∈ foundPercentages text, 1 ≤ x ∧ x ≤ 1000 := by
  intro x hx
  unfold foundPercentages at hx
  rcases List.mem_append.mp hx with h | h
  · have := wordScanCandidates_bounds (jsSplitWs text) x h
    omega
  · exact patternCandidates_bounds text x h

/-- C8: the percentage parser returns the maximum collected candidate — every
non-null result is a collected candidate, is an upper bound of all collected
candidates, and lies in `[1, 1000]`; `"21% Boost"` yields 21; a text with
both `"21% Boost"` and a stray `"5%"` yields 21; a text with no numeric token
yields null. -/
theorem parsePercentageFromText_c8_maxRule :
    (∀ text r, parsePercentageFromText text = some r →
      r ∈ foundPercentages text ∧ (∀ c ∈ foundPercentages text, c ≤ r) ∧
      1 ≤ r ∧ r ≤ 1000) ∧
    parsePercentageFromText ("21% Boost".toList) = some 21 ∧
    parsePercentageFromText ("21% Boost and a stray 5%".toList) = some 21 ∧
    parsePercentageFromText ("no numeric token in sight".toList) = none := by
  refine ⟨?_, by decide, by decide, by decide⟩
  intro text r hr
  unfold parsePercentageFromText at hr
  by_cases hlen : (foundPercentages text).length > 0
  · rw [if_pos hlen] at hr
    injection hr with hr
    have hne : (foundPercentages text).dedup ≠ [] := by
      intro hnil
      rw [List.dedup_eq_nil] at hnil
      rw [hnil] at hlen
      simp at hlen
    have hmem : r ∈ (foundPercentages text).dedup := by
      rw [← hr]
      exact listMaxNat_mem _ hne
    have hmem2 : r ∈ foundPercentages text := (List.mem_dedup.mp hmem)
    have hbounds := foundPercentages_bounds text r hmem2
    refine ⟨hmem2, ?_, hbounds.1, hbounds.2⟩
    intro c hc
    rw [← hr]
    exact le_listMaxNat _ c (List.mem_dedup.mpr hc)
  · rw [if_neg hlen] at hr
    exact absurd hr (by simp)

/-- C8 witness: the max-rule part applied to the text with a stray `5%`. -/
theorem parsePercentageFromText_c8_witness :
    parsePercentageFromText ("21% Boost and a stray 5%".toList) = some 21 ∧
    (21 ∈ foundPercentages ("21% Boost and a stray 5%".toList) ∧
     (∀ c ∈ foundPercentages ("21% Boost and a stray 5%".toList), c ≤ 21) ∧
     1 ≤ 21 ∧ 21 ≤ 1000) :=
  ⟨by decide,
   parsePercentageFromText_c8_maxRule.1 ("21% Boost and a stray 5%".toList) 21 (by decide)⟩

/-! ## C1 -/

/-- C1 counterexample: on the claim's own input `"Was +1200 Now +900"` the
parser returns the invalid pair `{pre: +1200, post: +900}` as given — the
direct signed-number extraction (strategy at lines 130-154) fires before any
labeled strategy and no `post > pre` sanity check is ever applied to its
result, contradicting "yields either a swapped valid pair or null, never
{pre: +1200, post: +900}". -/
theorem detectOdds_c1_counterexample :
    detectOddsStr "Was +1200 Now +900" = (some "+1200", some "+900") := by decide

theorem replaceFirstSub_plus (w : List Char) :
    replaceFirstSub ('+' :: []) [] ('+' :: w) = w := by
  simp [replaceFirstSub, replaceFirstSubAux, litStrip, charCI]

/-- C1 amended: the `post > pre` sanity check with a single swap-and-recheck
lives only in the Was/Now full-match strategy (lines 313-354), which runs
only when no earlier strategy has produced a pair; when it does run, its
validation `wasNowFullValidate` returns the unswapped pair exactly when the
Now value strictly exceeds the Was value and null otherwise (after a swap the
recheck — the same comparison — always fails, so a swapped pair is never
emitted); earlier strategies, including the direct extraction that handles
`"Was +1200 Now +900"`, return their pair unchecked. -/
theorem wasNowFullValidate_c1_amended (wasNum nowNum : List Char)
    (hw1 : wasNum ≠ []) (hw2 : ∀ c ∈ wasNum, isDigitChar c = true)
    (hn1 : nowNum ≠ []) (hn2 : ∀ c ∈ nowNum, isDigitChar c = true) :
    (natOfDigits wasNum < natOfDigits nowNum →
      wasNowFullValidate wasNum nowNum = some ('+' :: wasNum, '+' :: nowNum)) ∧
    (natOfDigits nowNum ≤ natOfDigits wasNum →
      wasNowFullValidate wasNum nowNum = none) ∧
    (∀ p q, wasNowFullValidate wasNum nowNum = some (p, q) →
      natOfDigits wasNum < natOfDigits nowNum) := by
  have hpw := parseIntJS_digits hw1 hw2
  have hpn := parseIntJS_digits hn1 hn2
  have hrw := replaceFirstSub_plus wasNum
  have hrn := replaceFirstSub_plus nowNum
  have hpos : natOfDigits wasNum < natOfDigits nowNum →
      wasNowFullValidate wasNum nowNum = some ('+' :: wasNum, '+' :: nowNum) := by
    intro hlt
    unfold wasNowFullValidate
    simp only [hpw, hpn]
    rw [if_neg (by simp [nanLt]; omega)]
    unfold wasNowFinalCheck
    simp only [hrw, hrn, hpw, hpn]
    rw [if_neg (by simp [nanLe]; omega)]
  have hneg : natOfDigits nowNum ≤ natOfDigits wasNum →
      wasNowFullValidate wasNum nowNum = none := by
    intro hle
    unfold wasNowFullValidate
    simp only [hpw, hpn]
    by_cases hlt : natOfDigits nowNum < natOfDigits wasNum
    · rw [if_pos (by simp [nanLt]; omega), if_pos (by simp [nanLt]; omega)]
    · rw [if_neg (by simp [nanLt]; omega)]
      unfold wasNowFinalCheck
      simp only [hrw, hrn, hpw, hpn]
      rw [if_pos (by simp [nanLe]; omega)]
  refine ⟨hpos, hneg, ?_⟩
  intro p q hpq
  by_contra hcon
  push_neg at hcon
  rw [hneg hcon] at hpq
  exact absurd hpq (by simp)

/-- C1 witness: the amended validation applied to the digit pairs 900/1200
(valid, returned unswapped) and 1200/900 (invalid, null). -/
theorem wasNowFullValidate_c1_witness :
    wasNowFullValidate ('9' :: '0' :: '0' :: []) ('1' :: '2' :: '0' :: '0' :: []) =
      some ('+' :: '9' :: '0' :: '0' :: [], '+' :: '1' :: '2' :: '0' :: '0' :: []) ∧
    wasNowFullValidate ('1' :: '2' :: '0' :: '0' :: []) ('9' :: '0' :: '0' :: []) = none :=
  ⟨(wasNowFullValidate_c1_amended ('9' :: '0' :: '0' :: []) ('1' :: '2' :: '0' :: '0' :: [])
      (by decide) (by decide) (by decide) (by decide)).1 (by decide),
   (wasNowFullValidate_c1_amended ('1' :: '2' :: '0' :: '0' :: []) ('9' :: '0' :: '0' :: [])
      (by decide) (by decide) (by decide) (by decide)).2.1 (by decide)⟩
